import Mathlib

/-!
Verification development for the signal-service repository.

The engine (src/signal_service/strategy/engine.py), the execution client
(src/signal_service/grpc/execution_client.py), the fan-out server
(src/signal_service/grpc/server.py) and the low-volatility momentum strategy
(src/signal_service/strategy/low_vol_momentum.py) are shallowly embedded
below.  Timestamps are modelled as integers (seconds since the epoch, always
normalized to UTC by the source before any comparison), prices as rationals,
and the database / strategy-instance / RPC collaborators as explicit oracle
inputs, so that every engine-visible behaviour of the source is a pure
function of its inputs.
-/

set_option linter.unusedVariables false
set_option maxRecDepth 8000
set_option linter.unusedTactic false

namespace SignalService

/-- Normalized UTC timestamps (seconds). -/
abbrev Ts := Int

/-- Values stored in a signal's meta dict. -/
inductive MVal where
  | s (v : String)
  | q (v : Rat)
  | n (v : Nat)
  | b (v : Bool)
  | obj (v : List (String × MVal))

/-- Signal dataclass (strategy/base.py lines 11-25).  The uuid-generated
idempotency and correlation keys are opaque strings here. -/
structure Signal where
  side : String
  price : Option Rat
  confidence : Rat
  meta : List (String × MVal)
  strategy_id : Option String
  strategy_version : Option String
  symbol : Option String
  timeframe : Option String
  idempotency_key : String
  correlation_id : String

/-- A candle as seen by process_candle.  The ts field is the value of
_normalize_candle_ts applied to the raw timestamp (engine.py lines 348-377):
none models an absent or unparseable timestamp. -/
structure Candle where
  symbol : String
  timeframe : String
  ts : Option Ts

/-- A live strategy instance as the engine sees it.  sessionOk abstracts the
outcome of _in_strategy_session for a present timestamp (engine.py lines
229-255); lookbackBars abstracts _calc_lookback_bars(timeframe,
params.lookback_days) (lines 202-227), per timeframe. -/
structure Strategy where
  id : String
  version : String
  symbols : List String
  timeframes : List String
  sessionOk : Ts → Bool
  mode : Option String
  lookbackBars : String → Nat

/-- Composite dict key f-string sid:sym:tf (engine.py lines 282, 289). -/
def mkKey (sid sym tf : String) : String :=
  sid ++ ":" ++ sym ++ ":" ++ tf

/-- Composite dict key f-string sym:tf (engine.py line 275). -/
def startupKey (sym tf : String) : String :=
  sym ++ ":" ++ tf

/-- Pointwise update of a dict modelled as a total function. -/
def upd {α : Type} (f : String → α) (k : String) (v : α) : String → α :=
  fun x => if x = k then v else f x

/-- Mutable engine bookkeeping (engine.py lines 30-38).  Python dicts are
modelled as total functions whose value at an absent key is the default the
source reads with (.get(k) → none, .get(k, 0) → 0, .get(k, True) → true). -/
structure EngineState where
  strategies : List Strategy
  lastCandleTs : String → Option Ts
  warmupRequired : String → Nat
  warmupComplete : String → Bool
  startupLatestTs : String → Option Ts
  hasExecutionClient : Bool

/-- External collaborators during one process_candle call: the history store
(_fetch_history result length per (symbol, timeframe, bars)), the strategy
instances' on_candle responses keyed by strategy id (error e models a raised
exception), the instruments table lookup, and whether the signals INSERT
raises. -/
structure Env where
  fetchLen : String → String → Nat → Nat
  onCandle : String → Except String (Option Signal)
  instrumentId : String → Option Nat
  persistError : Option String

/-- Observable actions of one process_candle call, in program order. -/
inductive Event where
  | fetched (symbol timeframe : String) (bars : Nat)
  | invoked (strategyId symbol timeframe : String) (ts : Option Ts)
  | persisted (strategyId symbol : String)
  | droppedUnknownInstrument (symbol : String)
  | forwarded (strategyId symbol : String)
  | emitted (strategyId symbol : String) (ts : Option Ts)
deriving DecidableEq

/-- Control flow of one loop iteration of process_candle: continue to the
next strategy, return a signal, or propagate an exception. -/
inductive StepFlow where
  | skip
  | emit (sig : Signal)
  | raise (e : String)

structure StepOut where
  state : EngineState
  events : List Event
  flow : StepFlow

/-- Session gate (engine.py line 270 with lines 229-232): a missing
timestamp passes, otherwise the per-strategy session check decides. -/
def inStrategySession (s : Strategy) (ts : Option Ts) : Bool :=
  match ts with
  | none => true
  | some t => s.sessionOk t

/-- dict assignment signal.meta[k] = v. -/
def setMeta (m : List (String × MVal)) (k : String) (v : MVal) : List (String × MVal) :=
  if (m.lookup k).isSome then m.map (fun p => if p.1 = k then (k, v) else p) else m ++ [(k, v)]

/-- Enrichment of an emitted signal (engine.py lines 312-320). -/
def enrich (s : Strategy) (c : Candle) (sig : Signal) : Signal :=
  { sig with
    strategy_id := some s.id
    strategy_version := some s.version
    symbol := some c.symbol
    timeframe := some c.timeframe
    meta := match s.mode with
      | some m => setMeta sig.meta "mode" (MVal.s m)
      | none => sig.meta }

/-- Persist and forward (engine.py lines 322-344, 454-481): _persist_signal
looks up the instrument (unknown → log warning and return without writing;
INSERT failure → the exception propagates, process_candle has no handler
around the persist call), then execute_signal is attempted when an execution
client is connected, with any forwarding error caught and logged. -/
def stepForward (env : Env) (c : Candle) (s : Strategy) (st : EngineState)
    (evs : List Event) (sig : Signal) : StepOut :=
  let evs := if st.hasExecutionClient then evs ++ [Event.forwarded s.id c.symbol] else evs
  { state := st, events := evs ++ [Event.emitted s.id c.symbol c.ts], flow := StepFlow.emit sig }

/-- Evaluate the strategy and publish (engine.py lines 310-344). -/
def stepEval2 (env : Env) (c : Candle) (s : Strategy) (st : EngineState)
    (evs : List Event) : StepOut :=
  let evs := evs ++ [Event.invoked s.id c.symbol c.timeframe c.ts]
  match env.onCandle s.id with
  | Except.error e => { state := st, events := evs, flow := StepFlow.raise e }
  | Except.ok none => { state := st, events := evs, flow := StepFlow.skip }
  | Except.ok (some sig0) =>
    let sig := enrich s c sig0
    match env.instrumentId c.symbol with
    | none =>
      stepForward env c s st (evs ++ [Event.droppedUnknownInstrument c.symbol]) sig
    | some _ =>
      match env.persistError with
      | some e => { state := st, events := evs, flow := StepFlow.raise e }
      | none => stepForward env c s st (evs ++ [Event.persisted s.id c.symbol]) sig

/-- bars_needed of process_candle (engine.py line 294): max(200, required,
lookback_bars) when lookback_bars is truthy, else max(200, required). -/
def barsNeeded (required lookback : Nat) : Nat :=
  if lookback ≠ 0 then max 200 (max required lookback) else max 200 required

/-- History fetch and warmup check (engine.py lines 288-308): request
bars_needed bars, and while warmup is pending skip the strategy when fewer
than required bars came back, otherwise mark warmup complete. -/
def stepEval (env : Env) (c : Candle) (s : Strategy) (st : EngineState) : StepOut :=
  let wkey := mkKey s.id c.symbol c.timeframe
  let required := st.warmupRequired wkey
  let bars := barsNeeded required (s.lookbackBars c.timeframe)
  let histLen := env.fetchLen c.symbol c.timeframe bars
  let evs : List Event := [Event.fetched c.symbol c.timeframe bars]
  if required > 0 ∧ st.warmupComplete wkey = false then
    if histLen < required then
      { state := st, events := evs, flow := StepFlow.skip }
    else
      stepEval2 env c s { st with warmupComplete := upd st.warmupComplete wkey true } evs
  else
    stepEval2 env c s st evs

/-- The bookkeeping write of the de-duplication gate (engine.py line 286). -/
def dedupeUpd (s : Strategy) (c : Candle) (st : EngineState) (t : Ts) : EngineState :=
  { st with lastCandleTs := upd st.lastCandleTs (mkKey s.id c.symbol c.timeframe) (some t) }

/-- De-duplication gate (engine.py lines 280-286), reached only when the
candle has a timestamp: skip when ts is at or before the recorded last
candle, otherwise record it and continue. -/
def stepDedupe (env : Env) (c : Candle) (s : Strategy) (st : EngineState) (t : Ts) : StepOut :=
  match st.lastCandleTs (mkKey s.id c.symbol c.timeframe) with
  | some tl =>
    if t ≤ tl then { state := st, events := [], flow := StepFlow.skip }
    else stepEval env c s (dedupeUpd s c st t)
  | none => stepEval env c s (dedupeUpd s c st t)

/-- One iteration of the strategy loop in process_candle (engine.py lines
262-344): routing gate, session gate, startup gate, then de-duplication,
warmup, evaluation and publication.  Gates 3-5 are skipped when the
normalized timestamp is missing. -/
def stepStrategy (env : Env) (c : Candle) (s : Strategy) (st : EngineState) : StepOut :=
  if ¬ (c.symbol ∈ s.symbols ∧ c.timeframe ∈ s.timeframes) then
    { state := st, events := [], flow := StepFlow.skip }
  else if inStrategySession s c.ts = false then
    { state := st, events := [], flow := StepFlow.skip }
  else
    match c.ts with
    | some t =>
      match st.startupLatestTs (startupKey c.symbol c.timeframe) with
      | some t0 =>
        if t ≤ t0 then { state := st, events := [], flow := StepFlow.skip }
        else stepDedupe env c s st t
      | none => stepDedupe env c s st t
    | none => stepEval env c s st

/-- Result of a whole process_candle call.  error = some e means the call
raised e after performing the recorded events. -/
structure Outcome where
  state : EngineState
  result : Option Signal
  events : List Event
  error : Option String

/-- The strategy loop of process_candle: first emission wins, an uncaught
exception aborts the loop. -/
def processStrategies (env : Env) (c : Candle) : List Strategy → EngineState → Outcome
  | [], st => { state := st, result := none, events := [], error := none }
  | s :: rest, st =>
    let o := stepStrategy env c s st
    match o.flow with
    | StepFlow.skip =>
      let o2 := processStrategies env c rest o.state
      { o2 with events := o.events ++ o2.events }
    | StepFlow.emit sig => { state := o.state, result := some sig, events := o.events, error := none }
    | StepFlow.raise e => { state := o.state, result := none, events := o.events, error := some e }

/-- StrategyEngine.process_candle (engine.py lines 257-346). -/
def process_candle (env : Env) (c : Candle) (st : EngineState) : Outcome :=
  processStrategies env c st.strategies st

/-- A sequence of process_candle calls (the per-timeframe consumer loop);
each call comes with its own oracle, capturing evolving collaborators. -/
def runEngine : EngineState → List (Env × Candle) → EngineState × List Event
  | st, [] => (st, [])
  | st, (env, c) :: rest =>
    let o := process_candle env c st
    let r := runEngine o.state rest
    (r.1, o.events ++ r.2)

/-- Timestamps of on_candle invocations recorded for the dedupe key K, in
order: the invocation events whose strategy:symbol:timeframe key is K and
whose candle had a normalized timestamp. -/
def invokedTss (K : String) (evs : List Event) : List Ts :=
  evs.filterMap fun e =>
    match e with
    | Event.invoked sid sym tf (some t) => if mkKey sid sym tf = K then some t else none
    | _ => none

/-- A recorded last-candle timestamp, when present, lies strictly below t. -/
def OptLt (o : Option Ts) (t : Ts) : Prop :=
  ∀ tl, o = some tl → tl < t

/-- One active row of the strategies table, already passed through
_create_strategy: the instantiated strategy plus the row's init_periods
(engine.py lines 85-102; int(init_periods) if init_periods else 0 means a
missing value is modelled as 0). -/
structure StrategyRow where
  strat : Strategy
  initPeriods : Nat

/-- All (symbol, timeframe) combinations a strategy declares. -/
def comboKeys (s : Strategy) : List (String × String) :=
  s.symbols.flatMap fun sym => s.timeframes.map fun tf => (sym, tf)

/-- The warmup-tracking initialization for one combo of a loaded row
(engine.py lines 92-102). -/
def loadRowWarm (r : StrategyRow) (st2 : EngineState) (kv : String × String) : EngineState :=
  let wkey := mkKey r.strat.id kv.1 kv.2
  { st2 with
    warmupRequired := upd st2.warmupRequired wkey r.initPeriods
    warmupComplete := upd st2.warmupComplete wkey (r.initPeriods == 0) }

/-- Body of the row loop of _load_strategies (engine.py lines 85-102):
register the instance and initialize warmup tracking for each combo. -/
def loadRow (st : EngineState) (r : StrategyRow) : EngineState :=
  (comboKeys r.strat).foldl (loadRowWarm r) { st with strategies := st.strategies ++ [r.strat] }

/-- StrategyEngine._load_strategies (engine.py lines 76-102), with the DB
rows (post _create_strategy filtering) given as input. -/
def load_strategies (rows : List StrategyRow) (st : EngineState) : EngineState :=
  rows.foldl loadRow st

/-- Collaborators of _initialize_startup_state: the MAX(ts) query per
(symbol, timeframe) and the history-priming fetch lengths. -/
structure InitEnv where
  maxTs : String → String → Option Ts
  fetchLen : String → String → Nat → Nat

/-- The startup-timestamp write for one combo (engine.py lines 158-170). -/
def startupTsUpd (env : InitEnv) (st2 : EngineState) (kv : String × String) : EngineState :=
  match env.maxTs kv.1 kv.2 with
  | some ts =>
    { st2 with startupLatestTs := upd st2.startupLatestTs (startupKey kv.1 kv.2) (some ts) }
  | none => st2

/-- The warmup priming for one (strategy, symbol, timeframe) (engine.py
lines 178-200): bars_needed = max(required, lookback_bars) if lookback_bars
else required (no 200 floor here); on a fetch, warmup_complete is set to
whether at least required bars came back. -/
def primeWarmup (env : InitEnv) (s : Strategy) (st3 : EngineState) (kv : String × String) : EngineState :=
  let wkey := mkKey s.id kv.1 kv.2
  let required := st3.warmupRequired wkey
  let lookback := s.lookbackBars kv.2
  let barsNeeded := if lookback ≠ 0 then max required lookback else required
  if barsNeeded > 0 then
    if env.fetchLen kv.1 kv.2 barsNeeded ≥ required then
      { st3 with warmupComplete := upd st3.warmupComplete wkey true }
    else
      { st3 with warmupComplete := upd st3.warmupComplete wkey false }
  else st3

def primeStrategy (env : InitEnv) (st2 : EngineState) (s : Strategy) : EngineState :=
  (comboKeys s).foldl (primeWarmup env s) st2

/-- StrategyEngine._initialize_startup_state (engine.py lines 145-200):
record the latest catalog timestamp per unique combo, then prime warmup per
(strategy, symbol, timeframe). -/
def initialize_startup_state (env : InitEnv) (st : EngineState) : EngineState :=
  if st.strategies.isEmpty then st
  else
    let st1 := ((st.strategies.flatMap comboKeys).dedup).foldl (startupTsUpd env) st
    st1.strategies.foldl (primeStrategy env) st1

/-- StrategyEngine.reload_strategies (engine.py lines 53-60): clear the
strategy dict and both warmup dicts (a cleared dict read back through its
defaults is the default function), then re-run _load_strategies and
_initialize_startup_state.  _last_candle_ts is not touched. -/
def reload_strategies (rows : List StrategyRow) (ienv : InitEnv) (st : EngineState) : EngineState :=
  let st1 := { st with
    strategies := []
    warmupRequired := fun _ => 0
    warmupComplete := fun _ => true }
  initialize_startup_state ienv (load_strategies rows st1)

namespace Exec

/-- gRPC status codes relevant to the forwarder. -/
inductive RpcCode where
  | unavailable
  | deadlineExceeded
  | invalidArgument
  | failedPrecondition
  | unknown
deriving DecidableEq

/-- Transient (network / Unavailable-class) codes. -/
def RpcCode.isTransient : RpcCode → Bool
  | .unavailable => true
  | .deadlineExceeded => true
  | _ => false

/-- Result of ExecutionServiceClient.execute_signal: the returned response
or the raised error (error none is the unreachable raise-with-no-recorded-
error path for max_retries = 0), the asyncio.sleep durations performed
between attempts in order, and the number of ExecuteSignal attempts made. -/
structure ExecResult where
  result : Except (Option RpcCode) Unit
  sleeps : List Rat
  attempts : Nat

/-- The retry loop of execute_signal (execution_client.py lines 129-182)
over the list of attempt numbers still to run: outcome gives each attempt's
RPC result; a success returns it at once; every grpc.RpcError is caught by
the single except clause, and when attempts remain (attempt < max_retries)
the loop sleeps retry_delay * attempt before the next one; after the loop
the recorded last error is raised. -/
def executeLoop (maxRetries : Nat) (retryDelay : Rat)
    (outcome : Nat → Except RpcCode Unit) :
    List Nat → Option RpcCode → ExecResult
  | [], last => { result := Except.error last, sleeps := [], attempts := 0 }
  | attempt :: rest, last =>
    match outcome attempt with
    | Except.ok u => { result := Except.ok u, sleeps := [], attempts := 1 }
    | Except.error e =>
      let tail := executeLoop maxRetries retryDelay outcome rest (some e)
      { result := tail.result
        sleeps := (if attempt < maxRetries then [retryDelay * (attempt : Rat)] else []) ++ tail.sleeps
        attempts := tail.attempts + 1 }

/-- ExecutionServiceClient.execute_signal (execution_client.py lines
111-182): for attempt in range(1, max_retries + 1), starting with no
recorded error. -/
def execute_signal (maxRetries : Nat) (retryDelay : Rat)
    (outcome : Nat → Except RpcCode Unit) : ExecResult :=
  executeLoop maxRetries retryDelay outcome (List.range' 1 maxRetries) none

end Exec

namespace Hub

/-- The fields of a TradeSignal the hub inspects. -/
structure TradeSig where
  signal_id : String
  strategy_id : String
  symbol : String
deriving DecidableEq

/-- SignalSubscription filter fields. -/
structure SignalSubscription where
  strategy_ids : List String
  symbols : List String
deriving DecidableEq

/-- A _subscribers entry (server.py lines 33-35): the asyncio.Queue created
by StreamSignals with no maxsize argument, i.e. an unbounded FIFO, paired
with the subscription request. -/
structure Subscriber where
  queue : List TradeSig
  request : SignalSubscription
deriving DecidableEq

/-- SignalServiceServer._broadcast (server.py lines 89-92): await
queue.put(trade_signal) for every subscriber; put on an unbounded
asyncio.Queue appends the item and completes immediately. -/
def broadcast (subs : List Subscriber) (sig : TradeSig) : List Subscriber :=
  subs.map fun sub => { sub with queue := sub.queue ++ [sig] }

/-- A sequence of broadcasts with no subscriber consuming. -/
def broadcastAll (subs : List Subscriber) (sigs : List TradeSig) : List Subscriber :=
  sigs.foldl broadcast subs

end Hub

namespace Lvm

/-- One history bar as used by _get_vol_regime (only high, low, close are
read); numeric columns are coerced to float by on_candle, modelled as
rationals. -/
structure Bar where
  high : Rat
  low : Rat
  close : Rat

/-- LowVolMomentumStrategy parameters (low_vol_momentum.py lines 33-47);
session times are seconds-of-day. -/
structure LvmParams where
  atrPeriod : Nat
  lookbackDays : Nat
  lowVolThreshold : Rat
  momentumLookback : Nat
  stopLossPct : Rat
  maxHoldHours : Nat
  exitOnRegimeChange : Bool
  requireCandleConfirmation : Bool
  sessionStart : Option Nat
  sessionEnd : Option Nat

/-- The true-range series (low_vol_momentum.py lines 96-103): pandas
concat + np.max(axis=1) skips the NaN shift() produces on the first row, so
row 0 is high - low and every later row is
max(high - low, abs(high - prev_close), abs(low - prev_close)). -/
def trueRangeFrom (prevClose : Option Rat) : List Bar → List Rat
  | [] => []
  | b :: rest =>
    (match prevClose with
     | none => b.high - b.low
     | some pc => max (b.high - b.low) (max |b.high - pc| |b.low - pc|)) :: trueRangeFrom (some b.close) rest

def trueRange (bars : List Bar) : List Rat :=
  trueRangeFrom none bars

/-- rolling(period).mean() over a NaN-free series: the first period - 1
entries are NaN (none), every later entry the mean of the trailing window. -/
def rollingMean (period : Nat) (xs : List Rat) : List (Option Rat) :=
  (List.range xs.length).map fun i =>
    if i + 1 < period then none
    else some (((xs.drop (i + 1 - period)).take period).sum / (period : Rat))

/-- atr_pct = atr / close * 100, elementwise, NaN-propagating. -/
def atrPctList (p : LvmParams) (history : List Bar) : List (Option Rat) :=
  (rollingMean p.atrPeriod (trueRange history)).zipWith
    (fun a b =>
      match a with
      | none => none
      | some v => some (v / b.close * 100))
    history

/-- LowVolMomentumStrategy._get_vol_regime (low_vol_momentum.py lines
105-140).  Comparisons against a NaN current value are false, as in pandas. -/
def getVolRegime (p : LvmParams) (history : List Bar) : String × Rat :=
  if history.length < p.atrPeriod + 10 then ("unknown", 50)
  else
    let atrPct := atrPctList p history
    let lookbackPeriods := p.lookbackDays * 24 * 4
    if atrPct.length < lookbackPeriods then ("unknown", 50)
    else
      let current : Option Rat :=
        match atrPct.getLast? with
        | some v => v
        | none => none
      let atrHistory := (atrPct.drop (atrPct.length - lookbackPeriods)).filterMap id
      if atrHistory.length < 10 then ("unknown", 50)
      else
        let percentile :=
          ((atrHistory.filter fun h =>
              match current with
              | some cv => decide (h < cv)
              | none => false).length : Rat) / (atrHistory.length : Rat) * 100
        if percentile < p.lowVolThreshold then ("low", percentile)
        else if percentile > 70 then ("high", percentile)
        else ("mid", percentile)

/-- In-memory position state entry (low_vol_momentum.py lines 259-264). -/
structure Position where
  side : String
  entry_price : Rat
  entry_ts : Ts
  entry_regime : String

/-- The _positions dict (per-symbol). -/
structure LvmState where
  positions : String → Option Position

/-- A candle dict as read by on_candle; ts is the normalized value of
candle timestamp or ts (none when absent or unparseable). -/
structure LCandle where
  symbol : Option String
  «open» : Option Rat
  close : Option Rat
  ts : Option Ts

/-- UTC seconds-of-day of a normalized timestamp. -/
def tod (t : Ts) : Int :=
  t % 86400

/-- LowVolMomentumStrategy._in_session (low_vol_momentum.py lines 84-94). -/
def inSession (p : LvmParams) (ts : Option Ts) : Bool :=
  match p.sessionStart, p.sessionEnd with
  | some s, some e =>
    (match ts with
     | none => true
     | some t => decide ((s : Int) ≤ tod t ∧ tod t ≤ (e : Int)))
  | _, _ => true

/-- LowVolMomentumStrategy._position_key (low_vol_momentum.py lines
142-148); an empty-string symbol is falsy in Python. -/
def positionKeyFallback (symbols : List String) : String :=
  match symbols with
  | s :: _ => s
  | [] => "default"

def positionKey (symbols : List String) (c : LCandle) : String :=
  match c.symbol with
  | some s => if s = "" then positionKeyFallback symbols else s
  | none => positionKeyFallback symbols

/-- The exit side is the string opposite of the entry side
(low_vol_momentum.py lines 187, 204, 222). -/
def oppositeOf (side : String) : String :=
  if side = "long" then "short" else "long"

/-- Signal(side, price, confidence, meta) as the strategy constructs it. -/
def mkSig (side : String) (price : Rat) (confidence : Rat)
    (meta : List (String × MVal)) : Signal :=
  { side := side, price := some price, confidence := confidence, meta := meta
    strategy_id := none, strategy_version := none, symbol := none, timeframe := none
    idempotency_key := "", correlation_id := "" }

/-- Regime-change exit check (low_vol_momentum.py lines 216-234). -/
def exitRegimeCheck (p : LvmParams) (st : LvmState) (history : List Bar) (key : String)
    (pos : Position) (close pnl : Rat) : LvmState × Option Signal :=
  if p.exitOnRegimeChange then
    let rp := getVolRegime p history
    if rp.1 ≠ "unknown" ∧ rp.1 ≠ pos.entry_regime then
      ({ positions := upd st.positions key none },
       some (mkSig (oppositeOf pos.side) close (55/100)
         [("exit_reason", MVal.s "regime_change"), ("atr_percentile", MVal.q rp.2),
          ("entry_price", MVal.q pos.entry_price), ("pnl_pct", MVal.q pnl),
          ("strategy_type", MVal.s "low_vol_momentum")]))
    else (st, none)
  else (st, none)

/-- Exit logic while in position (low_vol_momentum.py lines 176-234): stop
loss, then max hold (reachable only when the candle has a timestamp: the
stored entry_ts and the int max_hold_hours are always truthy), then regime
change, else hold.  Divisions are total rational divisions. -/
def exitLogic (p : LvmParams) (st : LvmState) (history : List Bar) (key : String)
    (pos : Position) (close : Rat) (ts : Option Ts) : LvmState × Option Signal :=
  let entry := pos.entry_price
  let pnl := if pos.side = "long" then (close - entry) / entry * 100 else (entry - close) / entry * 100
  if pnl ≤ -p.stopLossPct then
    ({ positions := upd st.positions key none },
     some (mkSig (oppositeOf pos.side) close (6/10)
       [("exit_reason", MVal.s "stop_loss"), ("entry_price", MVal.q entry),
        ("pnl_pct", MVal.q pnl), ("strategy_type", MVal.s "low_vol_momentum")]))
  else
    match ts with
    | some t =>
      let heldHours : Rat := ((t - pos.entry_ts : Int) : Rat) / 3600
      if heldHours ≥ (p.maxHoldHours : Rat) then
        ({ positions := upd st.positions key none },
         some (mkSig (oppositeOf pos.side) close (55/100)
           [("exit_reason", MVal.s "max_hold"), ("held_hours", MVal.q heldHours),
            ("entry_price", MVal.q entry), ("pnl_pct", MVal.q pnl),
            ("strategy_type", MVal.s "low_vol_momentum")]))
      else exitRegimeCheck p st history key pos close pnl
    | none => exitRegimeCheck p st history key pos close pnl

/-- Entry logic while flat (low_vol_momentum.py lines 236-283).  iloc[-mp]
is element length - mp for mp ≥ 1 and element 0 for mp = 0; list reads are
total with default 0 (Python would raise on an empty frame, which the
length guards rule out for the default parameters). -/
def entryLogic (p : LvmParams) (now : Ts) (st : LvmState) (c : LCandle)
    (history : List Bar) (close : Rat) (key : String) (ts : Option Ts) :
    LvmState × Option Signal :=
  if history.length < p.atrPeriod * 2 then (st, none)
  else
    let rp := getVolRegime p history
    if rp.1 ≠ "low" then (st, none)
    else
      let mp := p.momentumLookback * 4
      if history.length < mp then (st, none)
      else
        let closes := history.map Bar.close
        let lastClose := closes.getD (closes.length - 1) 0
        let baseClose := closes.getD (if mp = 0 then 0 else closes.length - mp) 0
        let momentum := (lastClose - baseClose) / baseClose
        let ref : Rat :=
          match c.«open» with
          | some o => if o = 0 then close else o
          | none => close
        let long0 := decide (momentum > 1/100)
        let short0 := decide (momentum < -(1/100))
        let longCond := if p.requireCandleConfirmation then long0 && decide (close > ref) else long0
        let shortCond := if p.requireCandleConfirmation then short0 && decide (close < ref) else short0
        if longCond || shortCond then
          let side := if longCond then "long" else "short"
          ({ positions := upd st.positions key
              (some { side := side, entry_price := close, entry_ts := ts.getD now,
                      entry_regime := rp.1 }) },
           some (mkSig side close (min (1/2 + |momentum| * 10) (9/10))
             [("momentum", MVal.q momentum), ("atr_percentile", MVal.q rp.2),
              ("regime", MVal.s rp.1), ("momentum_lookback_hours", MVal.n p.momentumLookback),
              ("strategy_type", MVal.s "low_vol_momentum"),
              ("exit_rules", MVal.obj
                [("stop_loss_pct", MVal.q p.stopLossPct),
                 ("max_hold_hours", MVal.n p.maxHoldHours),
                 ("exit_on_regime_change", MVal.b p.exitOnRegimeChange)])]))
        else (st, none)

/-- LowVolMomentumStrategy.on_candle (low_vol_momentum.py lines 150-283);
now is the datetime.now value used as the entry_ts fallback. -/
def on_candle (p : LvmParams) (syms : List String) (now : Ts) (st : LvmState)
    (c : LCandle) (history : List Bar) : LvmState × Option Signal :=
  match c.close with
  | none => (st, none)
  | some close =>
    if c.ts.isSome && !(inSession p c.ts) then (st, none)
    else
      let key := positionKey syms c
      match st.positions key with
      | some pos => exitLogic p st history key pos close c.ts
      | none => entryLogic p now st c history close key c.ts

/-- One on_candle call's inputs. -/
structure LvmCall where
  c : LCandle
  history : List Bar
  now : Ts

/-- A sequence of on_candle calls against the same instance. -/
def runLvm (p : LvmParams) (syms : List String) :
    LvmState → List LvmCall → LvmState × List (Option Signal)
  | st, [] => (st, [])
  | st, call :: rest =>
    let r1 := on_candle p syms call.now st call.c call.history
    let r2 := runLvm p syms r1.1 rest
    (r2.1, r1.2 :: r2.2)

/-- An exit signal for an entry side: opposite side and a populated
meta.exit_reason among the three exit rules. -/
def ExitShaped (entrySide : String) (sig : Signal) : Prop :=
  sig.side = oppositeOf entrySide ∧
  (sig.meta.lookup "exit_reason" = some (MVal.s "stop_loss") ∨
   sig.meta.lookup "exit_reason" = some (MVal.s "max_hold") ∨
   sig.meta.lookup "exit_reason" = some (MVal.s "regime_change"))

/-- Position discipline along a run: the first non-null output is an exit
signal for the given entry side (so in particular no second entry occurs
before it). -/
def NoSecondEntryUntilExit (entrySide : String) : List (Option Signal) → Prop
  | [] => True
  | none :: rest => NoSecondEntryUntilExit entrySide rest
  | some sig :: _ => ExitShaped entrySide sig

end Lvm

/-- Default LowVolMomentum parameters (low_vol_momentum.py lines 33-47). -/
def lvmP0 : Lvm.LvmParams :=
  { atrPeriod := 14, lookbackDays := 30, lowVolThreshold := 40, momentumLookback := 48
    stopLossPct := 2, maxHoldHours := 48, exitOnRegimeChange := true
    requireCandleConfirmation := false, sessionStart := none, sessionEnd := none }

/-- A long position entered at 100. -/
def lvmPos0 : Lvm.Position :=
  { side := "long", entry_price := 100, entry_ts := 0, entry_regime := "low" }

/-- An instance state holding lvmPos0 for BTC. -/
def lvmSt0 : Lvm.LvmState :=
  { positions := fun k => if k = "BTC" then some lvmPos0 else none }

/-- A BTC candle at 97 one minute later: a 3 percent loss, beyond the 2
percent stop. -/
def lvmCall0 : Lvm.LvmCall :=
  { c := { symbol := some "BTC", «open» := some 97, close := some 97, ts := some 60 }
    history := [], now := 60 }

/-- A concrete strategy instance routed to BTC 5m with a pass-all session. -/
def exStrat : Strategy :=
  { id := "s1", version := "1.0.0", symbols := ["BTC"], timeframes := ["5m"]
    sessionOk := fun _ => true, mode := none, lookbackBars := fun _ => 0 }

/-- A benign oracle: 200 bars of history, no signal, known instrument,
clean writes. -/
def exEnv : Env :=
  { fetchLen := fun _ _ _ => 200, onCandle := fun _ => Except.ok none
    instrumentId := fun _ => some 1, persistError := none }

/-- An engine state with exStrat registered, no dedupe history, no warmup
requirement, and startup_latest_ts 100 for BTC:5m. -/
def exState : EngineState :=
  { strategies := [exStrat], lastCandleTs := fun _ => none
    warmupRequired := fun _ => 0, warmupComplete := fun _ => true
    startupLatestTs := fun k => if k = "BTC:5m" then some 100 else none
    hasExecutionClient := false }

/-- An initialization oracle: no catalog rows, empty history. -/
def exInitEnv : InitEnv :=
  { maxTs := fun _ _ => none, fetchLen := fun _ _ _ => 0 }

/-- exState with a de-duplication entry recording 300 for s1 on BTC 5m. -/
def exState3 : EngineState :=
  { exState with lastCandleTs := fun k => if k = "s1:BTC:5m" then some 300 else none }

/-- The catalog row re-creating exStrat with no warmup requirement. -/
def exRow : StrategyRow :=
  { strat := exStrat, initPeriods := 0 }

/-- A strategy-produced long signal. -/
def exSig : Signal :=
  { side := "long", price := some 1, confidence := 1/2, meta := []
    strategy_id := none, strategy_version := none, symbol := none, timeframe := none
    idempotency_key := "", correlation_id := "" }

/-- An engine state with exStrat registered and no gates armed. -/
def exState0 : EngineState :=
  { strategies := [exStrat], lastCandleTs := fun _ => none
    warmupRequired := fun _ => 0, warmupComplete := fun _ => true
    startupLatestTs := fun _ => none, hasExecutionClient := false }

/-- An oracle whose strategy emits exSig on every candle. -/
def exEnvEmit : Env :=
  { fetchLen := fun _ _ _ => 200, onCandle := fun _ => Except.ok (some exSig)
    instrumentId := fun _ => some 1, persistError := none }

/-- An oracle whose strategy emits but whose instrument lookup finds no
row. -/
def exEnvNoInstr : Env :=
  { fetchLen := fun _ _ _ => 200, onCandle := fun _ => Except.ok (some exSig)
    instrumentId := fun _ => none, persistError := none }

/-- exState0 with an execution client connected. -/
def exStateExec : EngineState :=
  { exState0 with hasExecutionClient := true }

/-- A second strategy with the same routing. -/
def exStrat2 : Strategy :=
  { exStrat with id := "s2" }

/-- An oracle whose strategies raise from on_candle. -/
def exEnvRaise : Env :=
  { fetchLen := fun _ _ _ => 200, onCandle := fun _ => Except.error "boom"
    instrumentId := fun _ => some 1, persistError := none }

/-- An engine state with two strategies registered. -/
def exStateR : EngineState :=
  { exState0 with strategies := [exStrat, exStrat2] }

/-- exState0 with a pending warmup of 5 bars yet warmup already marked
complete for s1 on BTC 5m. -/
def exStateWarm : EngineState :=
  { exState0 with
    warmupRequired := fun k => if k = "s1:BTC:5m" then 5 else 0
    warmupComplete := fun _ => true }

/-- An oracle whose signals INSERT raises. -/
def exEnvPersistFail : Env :=
  { fetchLen := fun _ _ _ => 200, onCandle := fun _ => Except.ok (some exSig)
    instrumentId := fun _ => some 1, persistError := some "db" }

/-- exState0 with a pending warmup of 5 bars (not yet complete) for s1 on
BTC 5m. -/
def exStateWarmP : EngineState :=
  { exState0 with
    warmupRequired := fun k => if k = "s1:BTC:5m" then 5 else 0
    warmupComplete := fun k => if k = "s1:BTC:5m" then false else true }

/-- An oracle returning only 3 bars of history. -/
def exEnvShort : Env :=
  { fetchLen := fun _ _ _ => 3, onCandle := fun _ => Except.ok (some exSig)
    instrumentId := fun _ => some 1, persistError := none }

/-- A fresh subscriber with an empty queue and the empty (match-all) filter. -/
def emptySub : Hub.Subscriber :=
  { queue := [], request := { strategy_ids := [], symbols := [] } }

/-- A concrete broadcast payload. -/
def someSig : Hub.TradeSig :=
  { signal_id := "sig-1", strategy_id := "A", symbol := "BTC" }

/-! ## Helper lemmas: execution forwarder -/

lemma executeLoop_all_fail (maxRetries : Nat) (retryDelay : Rat)
    (outcome : Nat → Except Exec.RpcCode Unit) (codes : Nat → Exec.RpcCode)
    (hout : ∀ i, 1 ≤ i → i ≤ maxRetries → outcome i = Except.error (codes i)) :
    ∀ n a last, a + n = maxRetries + 1 → 1 ≤ a →
      Exec.executeLoop maxRetries retryDelay outcome (List.range' a n) last =
        { result := Except.error (if n = 0 then last else some (codes maxRetries))
          sleeps := (List.range' a (n - 1)).map (fun i : Nat => retryDelay * (i : Rat))
          attempts := n } := by
  intro n
  induction n with
  | zero =>
    intro a last hsum ha
    simp [Exec.executeLoop, List.range']
  | succ n ih =>
    intro a last hsum ha
    have ha2 : a ≤ maxRetries := by omega
    rw [List.range'_succ]
    simp only [Exec.executeLoop, hout a ha ha2]
    rw [ih (a + 1) (some (codes a)) (by omega) (by omega)]
    cases n with
    | zero =>
      have haeq : a = maxRetries := by omega
      subst haeq
      simp [List.range']
    | succ m =>
      have halt : a < maxRetries := by omega
      simp only [if_pos halt, Nat.succ_sub_one, Nat.succ_ne_zero, if_neg, ite_false]
      rw [List.range'_succ]
      simp

/-- All-attempts-fail characterization of execute_signal. -/
lemma execute_signal_all_fail (maxRetries : Nat) (retryDelay : Rat)
    (outcome : Nat → Except Exec.RpcCode Unit) (codes : Nat → Exec.RpcCode)
    (hmax : 1 ≤ maxRetries)
    (hout : ∀ i, 1 ≤ i → i ≤ maxRetries → outcome i = Except.error (codes i)) :
    Exec.execute_signal maxRetries retryDelay outcome =
      { result := Except.error (some (codes maxRetries))
        sleeps := (List.range' 1 (maxRetries - 1)).map (fun i : Nat => retryDelay * (i : Rat))
        attempts := maxRetries } := by
  have h := executeLoop_all_fail maxRetries retryDelay outcome codes hout maxRetries 1 none
    (by omega) (by omega)
  rw [Exec.execute_signal, h]
  have : maxRetries ≠ 0 := by omega
  simp [this]

lemma sum_map_mul_left_rat (d : Rat) (l : List Nat) :
    (l.map (fun i : Nat => d * (i : Rat))).sum = d * (l.map (fun i : Nat => (i : Rat))).sum := by
  induction l with
  | nil => simp
  | cons x xs ih =>
    simp only [List.map_cons, List.sum_cons, mul_add]
    rw [ih]

/-! ## Claims C5 and C6: execution forwarder retry policy -/

/-- Claim C6: when every attempt of execute_signal fails with a retryable
(transient) error, the forwarder makes at most max_retries attempts (here
exactly max_retries), waits retry_delay * attempt between consecutive
attempts (linear backoff), so the total wait equals retry_delay * (1 + 2 +
... + (max_retries - 1)), and after the final attempt it raises the last
error. -/
theorem C6_retry_bounds (maxRetries : Nat) (retryDelay : Rat)
    (outcome : Nat → Except Exec.RpcCode Unit) (codes : Nat → Exec.RpcCode)
    (hmax : 1 ≤ maxRetries)
    (hout : ∀ i, 1 ≤ i → i ≤ maxRetries → outcome i = Except.error (codes i))
    (htransient : ∀ i, 1 ≤ i → i ≤ maxRetries → (codes i).isTransient = true) :
    (Exec.execute_signal maxRetries retryDelay outcome).attempts = maxRetries ∧
    (Exec.execute_signal maxRetries retryDelay outcome).sleeps =
      (List.range' 1 (maxRetries - 1)).map (fun i : Nat => retryDelay * (i : Rat)) ∧
    (Exec.execute_signal maxRetries retryDelay outcome).sleeps.sum =
      retryDelay * ((List.range maxRetries).map (fun i : Nat => (i : Rat))).sum ∧
    (Exec.execute_signal maxRetries retryDelay outcome).result =
      Except.error (some (codes maxRetries)) := by
  have h := execute_signal_all_fail maxRetries retryDelay outcome codes hmax hout
  rw [h]
  refine ⟨rfl, rfl, ?_, rfl⟩
  rw [sum_map_mul_left_rat]
  congr 1
  obtain ⟨k, rfl⟩ : ∃ k, maxRetries = k + 1 := ⟨maxRetries - 1, by omega⟩
  rw [List.range_eq_range', List.range'_succ]
  simp

theorem C6_retry_bounds_witness :
    (1 ≤ 3) ∧
    ((Exec.execute_signal 3 1 (fun _ => Except.error Exec.RpcCode.unavailable)).attempts = 3 ∧
     (Exec.execute_signal 3 1 (fun _ => Except.error Exec.RpcCode.unavailable)).sleeps =
       (List.range' 1 (3 - 1)).map (fun i : Nat => 1 * (i : Rat)) ∧
     (Exec.execute_signal 3 1 (fun _ => Except.error Exec.RpcCode.unavailable)).sleeps.sum =
       1 * ((List.range 3).map (fun i : Nat => (i : Rat))).sum ∧
     (Exec.execute_signal 3 1 (fun _ => Except.error Exec.RpcCode.unavailable)).result =
       Except.error (some Exec.RpcCode.unavailable)) :=
  ⟨by decide,
   C6_retry_bounds 3 1 (fun _ => Except.error Exec.RpcCode.unavailable)
     (fun _ => Exec.RpcCode.unavailable) (by decide)
     (fun i h1 h2 => rfl) (fun i h1 h2 => rfl)⟩

/-- Claim C5 is false on the code: execute_signal's single except clause
catches every grpc.RpcError alike, so with each attempt failing with the
permanent code InvalidArgument the forwarder still makes all 3 attempts and
sleeps 1s and 2s between them, instead of failing fast with no retry. -/
theorem C5_counterexample :
    (Exec.execute_signal 3 1 (fun _ => Except.error Exec.RpcCode.invalidArgument)).attempts = 3 ∧
    (Exec.execute_signal 3 1 (fun _ => Except.error Exec.RpcCode.invalidArgument)).sleeps = [1, 2] ∧
    Exec.RpcCode.isTransient Exec.RpcCode.invalidArgument = false := by
  have h := execute_signal_all_fail 3 1 (fun _ => Except.error Exec.RpcCode.invalidArgument)
    (fun _ => Exec.RpcCode.invalidArgument) (by omega) (fun i h1 h2 => rfl)
  rw [h]
  refine ⟨rfl, ?_, rfl⟩
  show (List.range' 1 2).map (fun i : Nat => (1 : Rat) * (i : Rat)) = [1, 2]
  simp [List.range']

/-- Claim C5 amended: execute_signal treats permanent RPC errors
(InvalidArgument, FailedPrecondition) exactly like transient ones - every
RpcError is retried with the same linear backoff up to max_retries attempts,
and the last error is raised only after the final attempt; no fail-fast path
exists. -/
theorem C5_no_fail_fast (maxRetries : Nat) (retryDelay : Rat)
    (outcome : Nat → Except Exec.RpcCode Unit) (codes : Nat → Exec.RpcCode)
    (hmax : 1 ≤ maxRetries)
    (hout : ∀ i, 1 ≤ i → i ≤ maxRetries → outcome i = Except.error (codes i)) :
    (Exec.execute_signal maxRetries retryDelay outcome).attempts = maxRetries ∧
    (Exec.execute_signal maxRetries retryDelay outcome).sleeps =
      (List.range' 1 (maxRetries - 1)).map (fun i : Nat => retryDelay * (i : Rat)) ∧
    (Exec.execute_signal maxRetries retryDelay outcome).result =
      Except.error (some (codes maxRetries)) := by
  have h := execute_signal_all_fail maxRetries retryDelay outcome codes hmax hout
  rw [h]
  exact ⟨rfl, rfl, rfl⟩

theorem C5_no_fail_fast_witness :
    (1 ≤ 3) ∧
    ((Exec.execute_signal 3 1 (fun _ => Except.error Exec.RpcCode.invalidArgument)).attempts = 3 ∧
     (Exec.execute_signal 3 1 (fun _ => Except.error Exec.RpcCode.invalidArgument)).sleeps =
       (List.range' 1 (3 - 1)).map (fun i : Nat => 1 * (i : Rat)) ∧
     (Exec.execute_signal 3 1 (fun _ => Except.error Exec.RpcCode.invalidArgument)).result =
       Except.error (some Exec.RpcCode.invalidArgument)) :=
  ⟨by decide,
   C5_no_fail_fast 3 1 (fun _ => Except.error Exec.RpcCode.invalidArgument)
     (fun _ => Exec.RpcCode.invalidArgument) (by decide) (fun i h1 h2 => rfl)⟩

/-! ## Claim C8: fan-out hub queues -/

lemma broadcastAll_get (sigs : List Hub.TradeSig) :
    ∀ (subs : List Hub.Subscriber),
      (Hub.broadcastAll subs sigs).length = subs.length ∧
      ∀ i (hi : i < subs.length) (hi2 : i < (Hub.broadcastAll subs sigs).length),
        (Hub.broadcastAll subs sigs).get ⟨i, hi2⟩ =
          { queue := (subs.get ⟨i, hi⟩).queue ++ sigs
            request := (subs.get ⟨i, hi⟩).request } := by
  induction sigs with
  | nil =>
    intro subs
    refine ⟨rfl, ?_⟩
    intro i hi hi2
    simp [Hub.broadcastAll]
  | cons sig rest ih =>
    intro subs
    have hb : Hub.broadcastAll subs (sig :: rest) = Hub.broadcastAll (Hub.broadcast subs sig) rest := rfl
    have hlen : (Hub.broadcast subs sig).length = subs.length := by simp [Hub.broadcast]
    obtain ⟨ihlen, ihget⟩ := ih (Hub.broadcast subs sig)
    rw [hb]
    refine ⟨by rw [ihlen, hlen], ?_⟩
    intro i hi hi2
    have hi3 : i < (Hub.broadcast subs sig).length := by omega
    rw [ihget i hi3 hi2]
    have hmap : (Hub.broadcast subs sig).get ⟨i, hi3⟩ =
        { queue := (subs.get ⟨i, hi⟩).queue ++ [sig]
          request := (subs.get ⟨i, hi⟩).request } := by
      simp [Hub.broadcast]
    rw [hmap]
    simp

/-- Claim C8 is false on the code: StreamSignals creates each subscriber
queue as asyncio.Queue() with no maxsize - an unbounded queue - so no bound
(256 or otherwise) caps a non-consuming subscriber's queue and nothing is
ever dropped: for any claimed bound one more broadcast than the bound
exceeds it. -/
theorem C8_counterexample :
    ¬ ∃ bound : Nat, 256 ≤ bound ∧
      ∀ (sigs : List Hub.TradeSig)
        (h : 0 < (Hub.broadcastAll [emptySub] sigs).length),
        ((Hub.broadcastAll [emptySub] sigs).get ⟨0, h⟩).queue.length ≤ bound := by
  rintro ⟨bound, hb, hall⟩
  obtain ⟨hlen, hget⟩ := broadcastAll_get (List.replicate (bound + 1) someSig) [emptySub]
  have h0 : 0 < (Hub.broadcastAll [emptySub] (List.replicate (bound + 1) someSig)).length := by
    rw [hlen]; exact Nat.zero_lt_one
  have hle := hall (List.replicate (bound + 1) someSig) h0
  rw [hget 0 Nat.zero_lt_one h0] at hle
  simp [emptySub] at hle

/-- Claim C8 amended: each subscriber's queue is an unbounded FIFO;
_broadcast appends the signal to every subscriber's queue unconditionally
and as a total function it completes without waiting on any subscriber -
there is no 256-bound, no drop-newest-on-full, and no dropped counter, so a
non-consuming subscriber's queue simply grows by one per broadcast. -/
theorem C8_broadcast_unbounded (subs : List Hub.Subscriber) (sig : Hub.TradeSig)
    (sigs : List Hub.TradeSig) (i : Nat) (hi : i < subs.length)
    (hi2 : i < (Hub.broadcast subs sig).length)
    (hi3 : i < (Hub.broadcastAll subs sigs).length) :
    ((Hub.broadcast subs sig).get ⟨i, hi2⟩).queue = (subs.get ⟨i, hi⟩).queue ++ [sig] ∧
    ((Hub.broadcastAll subs sigs).get ⟨i, hi3⟩).queue.length =
      (subs.get ⟨i, hi⟩).queue.length + sigs.length := by
  constructor
  · simp [Hub.broadcast]
  · obtain ⟨hlen, hget⟩ := broadcastAll_get sigs subs
    rw [hget i hi hi3]
    simp

theorem C8_broadcast_unbounded_witness :
    (0 < 1) ∧
    (((Hub.broadcast [emptySub] someSig).get ⟨0, Nat.zero_lt_one⟩).queue =
       ([emptySub].get ⟨0, Nat.zero_lt_one⟩).queue ++ [someSig] ∧
     ((Hub.broadcastAll [emptySub] (List.replicate 300 someSig)).get
         ⟨0, Nat.zero_lt_one⟩).queue.length =
       ([emptySub].get ⟨0, Nat.zero_lt_one⟩).queue.length +
         (List.replicate 300 someSig).length) :=
  ⟨Nat.zero_lt_one,
   C8_broadcast_unbounded [emptySub] someSig (List.replicate 300 someSig) 0
     Nat.zero_lt_one Nat.zero_lt_one Nat.zero_lt_one⟩

/-! ## Claim C9: LowVolMomentum position discipline -/

lemma upd_self {α : Type} (f : String → α) (k : String) (v : α) : upd f k v k = v := by
  simp [upd]

lemma exitRegimeCheck_spec (p : Lvm.LvmParams) (st : Lvm.LvmState) (history : List Lvm.Bar)
    (key : String) (pos : Lvm.Position) (close pnl : Rat) :
    ((Lvm.exitRegimeCheck p st history key pos close pnl).2 = none ∧
     (Lvm.exitRegimeCheck p st history key pos close pnl).1 = st) ∨
    (∃ sig, (Lvm.exitRegimeCheck p st history key pos close pnl).2 = some sig ∧
     Lvm.ExitShaped pos.side sig) := by
  unfold Lvm.exitRegimeCheck
  split
  · dsimp only
    split
    · right
      exact ⟨_, rfl, rfl, Or.inr (Or.inr rfl)⟩
    · left
      exact ⟨rfl, rfl⟩
  · left
    exact ⟨rfl, rfl⟩

lemma exitLogic_spec (p : Lvm.LvmParams) (st : Lvm.LvmState) (history : List Lvm.Bar)
    (key : String) (pos : Lvm.Position) (close : Rat) (ts : Option Ts) :
    ((Lvm.exitLogic p st history key pos close ts).2 = none ∧
     (Lvm.exitLogic p st history key pos close ts).1 = st) ∨
    (∃ sig, (Lvm.exitLogic p st history key pos close ts).2 = some sig ∧
     Lvm.ExitShaped pos.side sig) := by
  unfold Lvm.exitLogic
  dsimp only
  split
  · split
    · right
      exact ⟨_, rfl, rfl, Or.inl rfl⟩
    · split
      · split
        · right
          exact ⟨_, rfl, rfl, Or.inr (Or.inl rfl)⟩
        · exact exitRegimeCheck_spec p st history key pos close _
      · exact exitRegimeCheck_spec p st history key pos close _
  · split
    · right
      exact ⟨_, rfl, rfl, Or.inl rfl⟩
    · split
      · split
        · right
          exact ⟨_, rfl, rfl, Or.inr (Or.inl rfl)⟩
        · exact exitRegimeCheck_spec p st history key pos close _
      · exact exitRegimeCheck_spec p st history key pos close _

lemma on_candle_in_position (p : Lvm.LvmParams) (syms : List String) (now : Ts)
    (st : Lvm.LvmState) (c : Lvm.LCandle) (history : List Lvm.Bar)
    (key : String) (pos : Lvm.Position)
    (hkey : Lvm.positionKey syms c = key)
    (hpos : st.positions key = some pos) :
    ((Lvm.on_candle p syms now st c history).2 = none ∧
     (Lvm.on_candle p syms now st c history).1.positions key = some pos) ∨
    (∃ sig, (Lvm.on_candle p syms now st c history).2 = some sig ∧
     Lvm.ExitShaped pos.side sig) := by
  unfold Lvm.on_candle
  cases hc : c.close with
  | none =>
    left
    exact ⟨rfl, hpos⟩
  | some close =>
    dsimp only
    by_cases hsess : (c.ts.isSome && !(Lvm.inSession p c.ts)) = true
    · rw [if_pos hsess]
      left
      exact ⟨rfl, hpos⟩
    · rw [if_neg hsess]
      rw [hkey, hpos]
      dsimp only
      rcases exitLogic_spec p st history key pos close c.ts with ⟨h2, h1⟩ | ⟨sig, h2, hsh⟩
      · left
        refine ⟨h2, ?_⟩
        rw [h1, hpos]
      · right
        exact ⟨sig, h2, hsh⟩

lemma runLvm_discipline (p : Lvm.LvmParams) (syms : List String) (key : String) :
    ∀ (calls : List Lvm.LvmCall) (st : Lvm.LvmState) (pos : Lvm.Position),
      st.positions key = some pos →
      (∀ x ∈ calls, Lvm.positionKey syms x.c = key) →
      Lvm.NoSecondEntryUntilExit pos.side (Lvm.runLvm p syms st calls).2 := by
  intro calls
  induction calls with
  | nil =>
    intro st pos hpos hkeys
    exact trivial
  | cons call rest ih =>
    intro st pos hpos hkeys
    have hk : Lvm.positionKey syms call.c = key := hkeys call (List.mem_cons_self call rest)
    have hrun : (Lvm.runLvm p syms st (call :: rest)).2 =
        (Lvm.on_candle p syms call.now st call.c call.history).2 ::
          (Lvm.runLvm p syms (Lvm.on_candle p syms call.now st call.c call.history).1 rest).2 := rfl
    rw [hrun]
    rcases on_candle_in_position p syms call.now st call.c call.history key pos hk hpos with
      ⟨hout, hpos2⟩ | ⟨sig, hout, hsh⟩
    · rw [hout]
      exact ih (Lvm.on_candle p syms call.now st call.c call.history).1 pos hpos2
        (fun x hx => hkeys x (List.mem_cons_of_mem call hx))
    · rw [hout]
      exact hsh

lemma entryLogic_entry (p : Lvm.LvmParams) (now : Ts) (st : Lvm.LvmState) (c : Lvm.LCandle)
    (history : List Lvm.Bar) (close : Rat) (key : String) (ts : Option Ts)
    (st2 : Lvm.LvmState) (sig : Signal)
    (h : Lvm.entryLogic p now st c history close key ts = (st2, some sig)) :
    (sig.side = "long" ∨ sig.side = "short") ∧
    ∃ pos : Lvm.Position, st2.positions key = some pos ∧ pos.side = sig.side := by
  unfold Lvm.entryLogic at h
  dsimp only at h
  repeat' split at h
  all_goals injection h with hst hsig
  all_goals cases hsig
  all_goals subst hst
  all_goals refine ⟨?_, ⟨_, upd_self _ _ _, rfl⟩⟩
  all_goals simp only [Lvm.mkSig]
  all_goals
    first
    | exact Or.inl rfl
    | exact Or.inr rfl
    | exact Or.inl trivial
    | exact Or.inr trivial

lemma on_candle_flat (p : Lvm.LvmParams) (syms : List String) (now : Ts)
    (st : Lvm.LvmState) (c : Lvm.LCandle) (history : List Lvm.Bar)
    (st2 : Lvm.LvmState) (sig : Signal)
    (hpos : st.positions (Lvm.positionKey syms c) = none)
    (h : Lvm.on_candle p syms now st c history = (st2, some sig)) :
    (sig.side = "long" ∨ sig.side = "short") ∧
    ∃ pos : Lvm.Position, st2.positions (Lvm.positionKey syms c) = some pos ∧
      pos.side = sig.side := by
  unfold Lvm.on_candle at h
  cases hc : c.close with
  | none =>
    rw [hc] at h
    exact absurd (congrArg Prod.snd h) (by simp)
  | some close =>
    rw [hc] at h
    dsimp only at h
    by_cases hsess : (c.ts.isSome && !(Lvm.inSession p c.ts)) = true
    · rw [if_pos hsess] at h
      exact absurd (congrArg Prod.snd h) (by simp)
    · rw [if_neg hsess] at h
      rw [hpos] at h
      exact entryLogic_entry p now st c history close (Lvm.positionKey syms c) c.ts st2 sig h

/-- Claim C9: for the stateful LowVolMomentumStrategy, an entry signal
(side long or short) puts the instance in position for the candle's symbol
key with the entry's side; and while in position, every subsequent on_candle
call at that key returns null until the first non-null return, which is an
exit signal - opposite side and meta.exit_reason among stop_loss, max_hold,
regime_change - never a second entry (the exit pops the position, returning
the key to flat). -/
theorem C9_position_discipline (p : Lvm.LvmParams) (syms : List String) :
    (∀ (now : Ts) (st : Lvm.LvmState) (c : Lvm.LCandle) (history : List Lvm.Bar)
       (st2 : Lvm.LvmState) (sig : Signal),
       st.positions (Lvm.positionKey syms c) = none →
       Lvm.on_candle p syms now st c history = (st2, some sig) →
       (sig.side = "long" ∨ sig.side = "short") ∧
       ∃ pos : Lvm.Position, st2.positions (Lvm.positionKey syms c) = some pos ∧
         pos.side = sig.side) ∧
    (∀ (key : String) (st : Lvm.LvmState) (pos : Lvm.Position) (calls : List Lvm.LvmCall),
       st.positions key = some pos →
       (∀ x ∈ calls, Lvm.positionKey syms x.c = key) →
       Lvm.NoSecondEntryUntilExit pos.side (Lvm.runLvm p syms st calls).2) := by
  constructor
  · intro now st c history st2 sig hpos h
    exact on_candle_flat p syms now st c history st2 sig hpos h
  · intro key st pos calls hpos hkeys
    exact runLvm_discipline p syms key calls st pos hpos hkeys

theorem C9_position_discipline_witness :
    (lvmSt0.positions "BTC" = some lvmPos0) ∧
    (∀ x ∈ [lvmCall0], Lvm.positionKey ["BTC"] x.c = "BTC") ∧
    Lvm.NoSecondEntryUntilExit lvmPos0.side (Lvm.runLvm lvmP0 ["BTC"] lvmSt0 [lvmCall0]).2 :=
  ⟨rfl, by decide,
   (C9_position_discipline lvmP0 ["BTC"]).2 "BTC" lvmSt0 lvmPos0 [lvmCall0] rfl (by decide)⟩

/-! ## Helper lemmas: engine step characterization -/

lemma stepEval2_state (env : Env) (c : Candle) (s : Strategy) (st : EngineState)
    (evs : List Event) : (stepEval2 env c s st evs).state = st := by
  unfold stepEval2 stepForward
  repeat' split
  all_goals rfl

lemma stepEval_lastCandleTs (env : Env) (c : Candle) (s : Strategy) (st : EngineState) :
    (stepEval env c s st).state.lastCandleTs = st.lastCandleTs := by
  unfold stepEval
  dsimp only
  repeat' split
  all_goals
    first
    | rfl
    | rw [stepEval2_state]

lemma stepEval2_invokedTss (K : String) (env : Env) (c : Candle) (s : Strategy)
    (st : EngineState) (evs : List Event) :
    invokedTss K (stepEval2 env c s st evs).events =
      invokedTss K (evs ++ [Event.invoked s.id c.symbol c.timeframe c.ts]) := by
  unfold stepEval2 stepForward
  repeat' split
  all_goals
    simp only [invokedTss, List.filterMap_append, List.filterMap_cons, List.filterMap_nil,
      List.append_nil, List.cons_append, List.nil_append]

lemma stepEval_invokedTss (K : String) (env : Env) (c : Candle) (s : Strategy)
    (st : EngineState) :
    invokedTss K (stepEval env c s st).events = [] ∨
    invokedTss K (stepEval env c s st).events =
      invokedTss K [Event.invoked s.id c.symbol c.timeframe c.ts] := by
  unfold stepEval
  dsimp only
  repeat' split
  all_goals
    first
    | (right
       rw [stepEval2_invokedTss]
       simp only [invokedTss, List.filterMap_append, List.filterMap_cons, List.filterMap_nil,
         List.nil_append, List.cons_append, List.append_nil]
       done)
    | (left
       simp [invokedTss]
       done)


lemma invokedTss_append (K : String) (a b : List Event) :
    invokedTss K (a ++ b) = invokedTss K a ++ invokedTss K b := by
  simp [invokedTss, List.filterMap_append]

lemma stepEval_after_upd (K : String) (env : Env) (c : Candle) (s : Strategy)
    (st : EngineState) (t : Ts) (ht : c.ts = some t)
    (hopt : OptLt (st.lastCandleTs (mkKey s.id c.symbol c.timeframe)) t) :
    ((stepEval env c s (dedupeUpd s c st t)).state.lastCandleTs K = st.lastCandleTs K ∨
      ((stepEval env c s (dedupeUpd s c st t)).state.lastCandleTs K = some t ∧
        OptLt (st.lastCandleTs K) t)) ∧
    (invokedTss K (stepEval env c s (dedupeUpd s c st t)).events = [] ∨
      (invokedTss K (stepEval env c s (dedupeUpd s c st t)).events = [t] ∧
        OptLt (st.lastCandleTs K) t ∧
        (stepEval env c s (dedupeUpd s c st t)).state.lastCandleTs K = some t)) := by
  have hstate := stepEval_lastCandleTs env c s (dedupeUpd s c st t)
  by_cases hK : K = mkKey s.id c.symbol c.timeframe
  · have hK2 : (dedupeUpd s c st t).lastCandleTs K = some t := by
      simp [dedupeUpd, upd, hK]
    have hoptK : OptLt (st.lastCandleTs K) t := by rw [hK]; exact hopt
    constructor
    · right
      exact ⟨by rw [hstate, hK2], hoptK⟩
    · rcases stepEval_invokedTss K env c s (dedupeUpd s c st t) with h | h
      · left
        exact h
      · right
        refine ⟨?_, hoptK, by rw [hstate, hK2]⟩
        rw [h, ht]
        simp [invokedTss, hK]
  · have hK2 : (dedupeUpd s c st t).lastCandleTs K = st.lastCandleTs K := by
      simp [dedupeUpd, upd, hK]
    constructor
    · left
      rw [hstate, hK2]
    · rcases stepEval_invokedTss K env c s (dedupeUpd s c st t) with h | h
      · left
        exact h
      · left
        rw [h, ht]
        simp [invokedTss, Ne.symm hK]

lemma stepDedupe_key (K : String) (env : Env) (c : Candle) (s : Strategy)
    (st : EngineState) (t : Ts) (ht : c.ts = some t) :
    ((stepDedupe env c s st t).state.lastCandleTs K = st.lastCandleTs K ∨
      ((stepDedupe env c s st t).state.lastCandleTs K = some t ∧ OptLt (st.lastCandleTs K) t)) ∧
    (invokedTss K (stepDedupe env c s st t).events = [] ∨
      (invokedTss K (stepDedupe env c s st t).events = [t] ∧ OptLt (st.lastCandleTs K) t ∧
       (stepDedupe env c s st t).state.lastCandleTs K = some t)) := by
  unfold stepDedupe
  split
  · rename_i tl heq
    split
    · exact ⟨Or.inl rfl, Or.inl rfl⟩
    · rename_i hnle
      apply stepEval_after_upd K env c s st t ht
      intro tl2 heq2
      rw [heq] at heq2
      injection heq2 with heq3
      exact heq3 ▸ not_le.mp hnle
  · rename_i heq
    apply stepEval_after_upd K env c s st t ht
    intro tl2 heq2
    rw [heq] at heq2
    cases heq2

lemma stepStrategy_key (K : String) (env : Env) (c : Candle) (s : Strategy)
    (st : EngineState) (t : Ts) (ht : c.ts = some t) :
    ((stepStrategy env c s st).state.lastCandleTs K = st.lastCandleTs K ∨
      ((stepStrategy env c s st).state.lastCandleTs K = some t ∧ OptLt (st.lastCandleTs K) t)) ∧
    (invokedTss K (stepStrategy env c s st).events = [] ∨
      (invokedTss K (stepStrategy env c s st).events = [t] ∧ OptLt (st.lastCandleTs K) t ∧
       (stepStrategy env c s st).state.lastCandleTs K = some t)) := by
  unfold stepStrategy
  rw [ht]
  dsimp only
  split
  · exact ⟨Or.inl rfl, Or.inl rfl⟩
  · split
    · exact ⟨Or.inl rfl, Or.inl rfl⟩
    · split
      · split
        · exact ⟨Or.inl rfl, Or.inl rfl⟩
        · exact stepDedupe_key K env c s st t ht
      · exact stepDedupe_key K env c s st t ht

lemma stepStrategy_none_ts (K : String) (env : Env) (c : Candle) (s : Strategy)
    (st : EngineState) (ht : c.ts = none) :
    (stepStrategy env c s st).state.lastCandleTs = st.lastCandleTs ∧
    invokedTss K (stepStrategy env c s st).events = [] := by
  unfold stepStrategy
  rw [ht]
  dsimp only
  split
  · exact ⟨rfl, rfl⟩
  · split
    · exact ⟨rfl, rfl⟩
    · refine ⟨stepEval_lastCandleTs env c s st, ?_⟩
      rcases stepEval_invokedTss K env c s st with h | h
      · exact h
      · rw [h, ht]
        simp [invokedTss]

lemma processStrategies_cons (env : Env) (c : Candle) (s : Strategy) (rest : List Strategy)
    (st : EngineState) :
    processStrategies env c (s :: rest) st =
      match (stepStrategy env c s st).flow with
      | StepFlow.skip =>
        { processStrategies env c rest (stepStrategy env c s st).state with
          events := (stepStrategy env c s st).events ++
            (processStrategies env c rest (stepStrategy env c s st).state).events }
      | StepFlow.emit sig =>
        { state := (stepStrategy env c s st).state, result := some sig,
          events := (stepStrategy env c s st).events, error := none }
      | StepFlow.raise e =>
        { state := (stepStrategy env c s st).state, result := none,
          events := (stepStrategy env c s st).events, error := some e } := rfl

lemma processStrategies_key (K : String) (env : Env) (c : Candle) (t : Ts)
    (ht : c.ts = some t) :
    ∀ (L : List Strategy) (st : EngineState),
      ((processStrategies env c L st).state.lastCandleTs K = st.lastCandleTs K ∨
        ((processStrategies env c L st).state.lastCandleTs K = some t ∧
         OptLt (st.lastCandleTs K) t)) ∧
      (invokedTss K (processStrategies env c L st).events = [] ∨
        (invokedTss K (processStrategies env c L st).events = [t] ∧
         OptLt (st.lastCandleTs K) t ∧
         (processStrategies env c L st).state.lastCandleTs K = some t)) := by
  intro L
  induction L with
  | nil =>
    intro st
    exact ⟨Or.inl rfl, Or.inl rfl⟩
  | cons s rest ih =>
    intro st
    obtain ⟨hA, hB⟩ := stepStrategy_key K env c s st t ht
    rw [processStrategies_cons]
    cases hflow : (stepStrategy env c s st).flow with
    | skip =>
      dsimp only
      obtain ⟨ihA, ihB⟩ := ih (stepStrategy env c s st).state
      constructor
      · rcases ihA with ihA | ⟨ihA1, ihA2⟩
        · rcases hA with hA | ⟨hA1, hA2⟩
          · left
            rw [ihA, hA]
          · right
            exact ⟨by rw [ihA, hA1], hA2⟩
        · rcases hA with hA | ⟨hA1, hA2⟩
          · right
            refine ⟨ihA1, ?_⟩
            intro tl hl
            exact ihA2 tl (by rw [hA, hl])
          · right
            exact ⟨ihA1, hA2⟩
      · rw [invokedTss_append]
        rcases hB with ⟨hB⟩ | ⟨hB1, hB2, hB3⟩
        · rcases ihB with ihB | ⟨ihB1, ihB2, ihB3⟩
          · left
            rw [hB, ihB]
            rfl
          · right
            refine ⟨by rw [hB, ihB1]; rfl, ?_, ihB3⟩
            rcases hA with hA | ⟨hA1, hA2⟩
            · intro tl hl
              exact ihB2 tl (by rw [hA, hl])
            · exact hA2
        · rcases ihB with ihB | ⟨ihB1, ihB2, ihB3⟩
          · right
            refine ⟨by rw [hB1, ihB]; rfl, hB2, ?_⟩
            rcases ihA with ihA | ⟨ihA1, ihA2⟩
            · rw [ihA, hB3]
            · exact ihA1
          · exact absurd (ihB2 t hB3) (lt_irrefl t)
    | emit sig =>
      dsimp only
      exact ⟨hA, hB⟩
    | raise e =>
      dsimp only
      exact ⟨hA, hB⟩

lemma processStrategies_none_ts (K : String) (env : Env) (c : Candle) (ht : c.ts = none) :
    ∀ (L : List Strategy) (st : EngineState),
      (processStrategies env c L st).state.lastCandleTs = st.lastCandleTs ∧
      invokedTss K (processStrategies env c L st).events = [] := by
  intro L
  induction L with
  | nil =>
    intro st
    exact ⟨rfl, rfl⟩
  | cons s rest ih =>
    intro st
    obtain ⟨hA, hB⟩ := stepStrategy_none_ts K env c s st ht
    rw [processStrategies_cons]
    cases hflow : (stepStrategy env c s st).flow with
    | skip =>
      dsimp only
      obtain ⟨ihA, ihB⟩ := ih (stepStrategy env c s st).state
      refine ⟨by rw [ihA, hA], ?_⟩
      rw [invokedTss_append, hB, ihB]
      rfl
    | emit sig =>
      dsimp only
      exact ⟨hA, hB⟩
    | raise e =>
      dsimp only
      exact ⟨hA, hB⟩

lemma runEngine_cons (st : EngineState) (env : Env) (c : Candle)
    (rest : List (Env × Candle)) :
    runEngine st ((env, c) :: rest) =
      ((runEngine (processStrategies env c st.strategies st).state rest).1,
       (processStrategies env c st.strategies st).events ++
         (runEngine (processStrategies env c st.strategies st).state rest).2) := rfl

lemma runEngine_chain (K : String) :
    ∀ (trace : List (Env × Candle)) (st : EngineState),
      List.Chain' (fun a b => a < b) (invokedTss K (runEngine st trace).2) ∧
      (∀ x ∈ invokedTss K (runEngine st trace).2, OptLt (st.lastCandleTs K) x) := by
  intro trace
  induction trace with
  | nil =>
    intro st
    constructor
    · exact List.chain'_nil
    · intro x hx
      exact absurd hx (List.not_mem_nil x)
  | cons ec rest ih =>
    obtain ⟨env, c⟩ := ec
    intro st
    rw [runEngine_cons]
    dsimp only
    rw [invokedTss_append]
    cases hts : c.ts with
    | none =>
      obtain ⟨hA, hB⟩ := processStrategies_none_ts K env c hts st.strategies st
      obtain ⟨ihC, ihM⟩ := ih (processStrategies env c st.strategies st).state
      rw [hB, List.nil_append]
      refine ⟨ihC, ?_⟩
      intro x hx
      intro tl hl
      exact ihM x hx tl (by rw [congrFun hA K]; exact hl)
    | some t =>
      obtain ⟨hA, hB⟩ := processStrategies_key K env c t hts st.strategies st
      obtain ⟨ihC, ihM⟩ := ih (processStrategies env c st.strategies st).state
      rcases hB with hB | ⟨hB1, hB2, hB3⟩
      · rw [hB, List.nil_append]
        refine ⟨ihC, ?_⟩
        intro x hx
        rcases hA with hA | ⟨hA1, hA2⟩
        · intro tl hl
          exact ihM x hx tl (by rw [hA]; exact hl)
        · intro tl hl
          have h1 : tl < t := hA2 tl hl
          have h2 : t < x := ihM x hx t hA1
          exact lt_trans h1 h2
      · rw [hB1, List.singleton_append]
        constructor
        · rw [List.chain'_cons']
          constructor
          · intro y hy
            exact ihM y (List.mem_of_mem_head? hy) t hB3
          · exact ihC
        · intro x hx
          rcases List.mem_cons.mp hx with hx | hx
          · subst hx
            exact hB2
          · intro tl hl
            have h1 : tl < t := hB2 tl hl
            have h2 : t < x := ihM x hx t hB3
            exact lt_trans h1 h2

lemma stepStrategy_startup_skip (env : Env) (c : Candle) (s : Strategy) (st : EngineState)
    (t t0 : Ts) (ht : c.ts = some t)
    (hst : st.startupLatestTs (startupKey c.symbol c.timeframe) = some t0) (hle : t ≤ t0) :
    stepStrategy env c s st = { state := st, events := [], flow := StepFlow.skip } := by
  unfold stepStrategy
  rw [ht]
  dsimp only
  rw [hst]
  dsimp only
  rw [if_pos hle]
  split
  · rfl
  · split
    · rfl
    · rfl

lemma processStrategies_startup_skip (env : Env) (c : Candle) (st : EngineState)
    (t t0 : Ts) (ht : c.ts = some t)
    (hst : st.startupLatestTs (startupKey c.symbol c.timeframe) = some t0) (hle : t ≤ t0) :
    ∀ L, processStrategies env c L st =
      { state := st, result := none, events := [], error := none } := by
  intro L
  induction L with
  | nil => rfl
  | cons s rest ih =>
    rw [processStrategies_cons, stepStrategy_startup_skip env c s st t t0 ht hst hle]
    dsimp only
    rw [ih]
    rfl

/-- Claim C4: for every strategy:symbol:timeframe key, the normalized
timestamps of the candles that process_candle passes into that strategy's
on_candle form a strictly increasing sequence over any run of the engine;
and a single process_candle call on a candle whose normalized timestamp is
at or before startup_latest_ts[symbol:timeframe] (recorded at engine
initialization) performs nothing: no on_candle invocation, no event at all,
no state change - in particular no update to last_candle_ts - and no
signal. -/
theorem C4_monotonicity_startup (K : String) (st : EngineState)
    (trace : List (Env × Candle)) :
    List.Chain' (fun a b => a < b) (invokedTss K (runEngine st trace).2) ∧
    (∀ (env : Env) (c : Candle) (t t0 : Ts),
       c.ts = some t →
       st.startupLatestTs (startupKey c.symbol c.timeframe) = some t0 →
       t ≤ t0 →
       (process_candle env c st).events = [] ∧
       (process_candle env c st).state = st ∧
       (process_candle env c st).result = none) := by
  constructor
  · exact (runEngine_chain K trace st).1
  · intro env c t t0 ht hst hle
    have h2 : process_candle env c st =
        { state := st, result := none, events := [], error := none } :=
      processStrategies_startup_skip env c st t t0 ht hst hle st.strategies
    exact ⟨by rw [h2], by rw [h2], by rw [h2]⟩

theorem C4_monotonicity_startup_witness :
    ((Candle.mk "BTC" "5m" (some 50)).ts = some 50 ∧
     exState.startupLatestTs (startupKey "BTC" "5m") = some 100 ∧
     (50 : Ts) ≤ 100) ∧
    List.Chain' (fun a b => a < b)
      (invokedTss "s1:BTC:5m" (runEngine exState [(exEnv, Candle.mk "BTC" "5m" (some 200))]).2) ∧
    ((process_candle exEnv (Candle.mk "BTC" "5m" (some 50)) exState).events = [] ∧
     (process_candle exEnv (Candle.mk "BTC" "5m" (some 50)) exState).state = exState ∧
     (process_candle exEnv (Candle.mk "BTC" "5m" (some 50)) exState).result = none) :=
  ⟨⟨rfl, rfl, by decide⟩,
   (C4_monotonicity_startup "s1:BTC:5m" exState [(exEnv, Candle.mk "BTC" "5m" (some 200))]).1,
   (C4_monotonicity_startup "s1:BTC:5m" exState [(exEnv, Candle.mk "BTC" "5m" (some 200))]).2
     exEnv (Candle.mk "BTC" "5m" (some 50)) 50 100 rfl rfl (by decide)⟩

/-! ## Claim C10: reload preserves the de-duplication map -/

lemma process_candle_def (env : Env) (c : Candle) (st : EngineState) :
    process_candle env c st = processStrategies env c st.strategies st := rfl

lemma foldl_preserve {α β γ : Type} (f : β → α) (g : β → γ → β)
    (h : ∀ b x, f (g b x) = f b) :
    ∀ (l : List γ) (b : β), f (List.foldl g b l) = f b := by
  intro l
  induction l with
  | nil =>
    intro b
    rfl
  | cons x xs ih =>
    intro b
    rw [List.foldl_cons, ih, h]

lemma loadRow_lastCandleTs (st : EngineState) (r : StrategyRow) :
    (loadRow st r).lastCandleTs = st.lastCandleTs := by
  unfold loadRow
  exact foldl_preserve EngineState.lastCandleTs (loadRowWarm r) (fun b kv => rfl)
    (comboKeys r.strat) _

lemma load_strategies_lastCandleTs (rows : List StrategyRow) (st : EngineState) :
    (load_strategies rows st).lastCandleTs = st.lastCandleTs :=
  foldl_preserve EngineState.lastCandleTs loadRow (fun b r => loadRow_lastCandleTs b r) rows st

lemma startupTsUpd_lastCandleTs (env : InitEnv) (b : EngineState) (kv : String × String) :
    (startupTsUpd env b kv).lastCandleTs = b.lastCandleTs := by
  unfold startupTsUpd
  split
  · rfl
  · rfl

lemma primeWarmup_lastCandleTs (env : InitEnv) (s : Strategy) (b : EngineState)
    (kv : String × String) :
    (primeWarmup env s b kv).lastCandleTs = b.lastCandleTs := by
  unfold primeWarmup
  dsimp only
  repeat' split
  all_goals rfl

lemma primeStrategy_lastCandleTs (env : InitEnv) (b : EngineState) (s : Strategy) :
    (primeStrategy env b s).lastCandleTs = b.lastCandleTs :=
  foldl_preserve EngineState.lastCandleTs (primeWarmup env s)
    (primeWarmup_lastCandleTs env s) (comboKeys s) b

lemma initialize_startup_state_lastCandleTs (env : InitEnv) (st : EngineState) :
    (initialize_startup_state env st).lastCandleTs = st.lastCandleTs := by
  unfold initialize_startup_state
  split
  · rfl
  · dsimp only
    rw [foldl_preserve EngineState.lastCandleTs (primeStrategy env)
      (fun b s => primeStrategy_lastCandleTs env b s) _ _]
    exact foldl_preserve EngineState.lastCandleTs (startupTsUpd env)
      (fun b kv => startupTsUpd_lastCandleTs env b kv) _ _

/-- Claim C10: reload_strategies clears only the strategy map and the two
warmup maps and leaves _last_candle_ts untouched, so after a reload
process_candle still rejects, for each strategy:symbol:timeframe key, any
candle whose normalized timestamp is at or before the last timestamp
processed for that key before the reload: no on_candle invocation for that
key happens and the recorded timestamp is unchanged. -/
theorem C10_reload_preserves_dedupe (rows : List StrategyRow) (ienv : InitEnv)
    (st : EngineState) :
    (reload_strategies rows ienv st).lastCandleTs = st.lastCandleTs ∧
    (∀ (env : Env) (c : Candle) (K : String) (t tl : Ts),
       c.ts = some t →
       st.lastCandleTs K = some tl →
       t ≤ tl →
       invokedTss K (process_candle env c (reload_strategies rows ienv st)).events = [] ∧
       (process_candle env c (reload_strategies rows ienv st)).state.lastCandleTs K = some tl) := by
  have hfr : (reload_strategies rows ienv st).lastCandleTs = st.lastCandleTs := by
    unfold reload_strategies
    rw [initialize_startup_state_lastCandleTs, load_strategies_lastCandleTs]
  refine ⟨hfr, ?_⟩
  intro env c K t tl ht hlast hle
  obtain ⟨hA, hB⟩ := processStrategies_key K env c t ht
    (reload_strategies rows ienv st).strategies (reload_strategies rows ienv st)
  have hlast2 : (reload_strategies rows ienv st).lastCandleTs K = some tl := by
    rw [congrFun hfr K]
    exact hlast
  rw [process_candle_def]
  constructor
  · rcases hB with hB | ⟨hB1, hB2, hB3⟩
    · exact hB
    · exact absurd (hB2 tl hlast2) (not_lt.mpr hle)
  · rcases hA with hA | ⟨hA1, hA2⟩
    · rw [hA]
      exact hlast2
    · exact absurd (hA2 tl hlast2) (not_lt.mpr hle)

theorem C10_reload_preserves_dedupe_witness :
    ((Candle.mk "BTC" "5m" (some 250)).ts = some 250 ∧
     exState3.lastCandleTs "s1:BTC:5m" = some 300 ∧ (250 : Ts) ≤ 300) ∧
    ((reload_strategies [exRow] exInitEnv exState3).lastCandleTs = exState3.lastCandleTs ∧
     (invokedTss "s1:BTC:5m"
        (process_candle exEnv (Candle.mk "BTC" "5m" (some 250))
          (reload_strategies [exRow] exInitEnv exState3)).events = [] ∧
      (process_candle exEnv (Candle.mk "BTC" "5m" (some 250))
          (reload_strategies [exRow] exInitEnv exState3)).state.lastCandleTs "s1:BTC:5m" =
        some 300)) :=
  ⟨⟨rfl, rfl, by decide⟩,
   ⟨(C10_reload_preserves_dedupe [exRow] exInitEnv exState3).1,
    (C10_reload_preserves_dedupe [exRow] exInitEnv exState3).2 exEnv
      (Candle.mk "BTC" "5m" (some 250)) "s1:BTC:5m" 250 300 rfl rfl (by decide)⟩⟩

/-! ## Claims C1, C2, C3, C7: process_candle gate and publication behaviour -/

lemma stepStrategy_gates_pass (env : Env) (c : Candle) (s : Strategy) (st : EngineState)
    (t : Ts) (ht : c.ts = some t)
    (hroute : c.symbol ∈ s.symbols ∧ c.timeframe ∈ s.timeframes)
    (hsession : s.sessionOk t = true)
    (hstartup : ∀ t0, st.startupLatestTs (startupKey c.symbol c.timeframe) = some t0 → t0 < t)
    (hdedupe : OptLt (st.lastCandleTs (mkKey s.id c.symbol c.timeframe)) t) :
    stepStrategy env c s st = stepEval env c s (dedupeUpd s c st t) := by
  unfold stepStrategy
  rw [ht]
  dsimp only
  rw [if_neg (not_not_intro hroute)]
  simp only [inStrategySession]
  rw [if_neg (by simp [hsession])]
  have hdd : stepDedupe env c s st t = stepEval env c s (dedupeUpd s c st t) := by
    unfold stepDedupe
    cases hD : st.lastCandleTs (mkKey s.id c.symbol c.timeframe) with
    | none => rfl
    | some tl =>
      dsimp only
      rw [if_neg (not_le.mpr (hdedupe tl hD))]
  cases hS : st.startupLatestTs (startupKey c.symbol c.timeframe) with
  | none =>
    dsimp only
    exact hdd
  | some t0 =>
    dsimp only
    rw [if_neg (not_le.mpr (hstartup t0 hS))]
    exact hdd

lemma stepEval2_invoked_mem (env : Env) (c : Candle) (s : Strategy) (st : EngineState)
    (evs : List Event) :
    Event.invoked s.id c.symbol c.timeframe c.ts ∈ (stepEval2 env c s st evs).events := by
  unfold stepEval2 stepForward
  repeat' split
  all_goals simp

/-- Claim C1 is false on the code: with no cooldown state anywhere in the
engine, a strategy that fires on consecutive candles emits two signals for
the same (strategy, symbol) only 60 seconds apart - far less than the
claimed 15-minute (900 s) cooldown. -/
theorem C1_counterexample :
    Event.emitted "s1" "BTC" (some 0) ∈
      (runEngine exState0 [(exEnvEmit, Candle.mk "BTC" "5m" (some 0)),
        (exEnvEmit, Candle.mk "BTC" "5m" (some 60))]).2 ∧
    Event.emitted "s1" "BTC" (some 60) ∈
      (runEngine exState0 [(exEnvEmit, Candle.mk "BTC" "5m" (some 0)),
        (exEnvEmit, Candle.mk "BTC" "5m" (some 60))]).2 ∧
    ((60 : Ts) - 0 < 15 * 60) := by
  refine ⟨?_, ?_, by decide⟩
  · decide
  · decide

/-- Claim C1 amended: process_candle keeps no last_signal_ts and enforces
no cooldown: whenever a candle passes the routing, session, startup,
de-duplication and warmup gates and the strategy returns a signal and the
persist step does not raise, the signal is emitted - even when an earlier
signal for the same (strategy, symbol) was emitted less than
cooldown_minutes (default 15 minutes = 900 s) before the candle's
timestamp.  The only temporal throttle is the strictly-increasing candle
timestamp de-duplication. -/
theorem C1_no_cooldown (env : Env) (c : Candle) (s : Strategy) (st : EngineState)
    (t tprev : Ts) (sig : Signal)
    (ht : c.ts = some t)
    (hroute : c.symbol ∈ s.symbols ∧ c.timeframe ∈ s.timeframes)
    (hsession : s.sessionOk t = true)
    (hstartup : ∀ t0, st.startupLatestTs (startupKey c.symbol c.timeframe) = some t0 → t0 < t)
    (hdedupe : OptLt (st.lastCandleTs (mkKey s.id c.symbol c.timeframe)) t)
    (hwarmup : st.warmupComplete (mkKey s.id c.symbol c.timeframe) = true)
    (hemit : env.onCandle s.id = Except.ok (some sig))
    (hpersist : env.persistError = none)
    (hprev : tprev ≤ t ∧ t < tprev + 900) :
    (stepStrategy env c s st).flow = StepFlow.emit (enrich s c sig) ∧
    Event.emitted s.id c.symbol (some t) ∈ (stepStrategy env c s st).events := by
  rw [stepStrategy_gates_pass env c s st t ht hroute hsession hstartup hdedupe]
  unfold stepEval
  dsimp only
  rw [if_neg (by
    intro hcon
    rw [show (dedupeUpd s c st t).warmupComplete = st.warmupComplete from rfl, hwarmup] at hcon
    cases hcon.2)]
  unfold stepEval2 stepForward
  rw [hemit]
  dsimp only
  cases hI : env.instrumentId c.symbol with
  | none =>
    rw [ht]
    constructor
    · rfl
    · simp
  | some n =>
    rw [hpersist]
    dsimp only
    rw [ht]
    constructor
    · rfl
    · simp

theorem C1_no_cooldown_witness :
    ((Candle.mk "BTC" "5m" (some 60)).ts = some 60 ∧
     ("BTC" ∈ exStrat.symbols ∧ "5m" ∈ exStrat.timeframes) ∧
     exStrat.sessionOk 60 = true ∧
     exState0.warmupComplete (mkKey "s1" "BTC" "5m") = true ∧
     exEnvEmit.onCandle "s1" = Except.ok (some exSig) ∧
     exEnvEmit.persistError = none ∧
     ((0 : Ts) ≤ 60 ∧ (60 : Ts) < 0 + 900)) ∧
    ((stepStrategy exEnvEmit (Candle.mk "BTC" "5m" (some 60)) exStrat exState0).flow =
       StepFlow.emit (enrich exStrat (Candle.mk "BTC" "5m" (some 60)) exSig) ∧
     Event.emitted "s1" "BTC" (some 60) ∈
       (stepStrategy exEnvEmit (Candle.mk "BTC" "5m" (some 60)) exStrat exState0).events) :=
  ⟨⟨rfl, ⟨by decide, by decide⟩, rfl, rfl, rfl, rfl, by decide⟩,
   C1_no_cooldown exEnvEmit (Candle.mk "BTC" "5m" (some 60)) exStrat exState0 60 0 exSig
     rfl ⟨by decide, by decide⟩ rfl (fun t0 h => by cases h) (fun tl h => by cases h) rfl
     rfl rfl ⟨by decide, by decide⟩⟩

/-- Claim C2 is false on the code: when the instrument lookup for the
signal's symbol finds no row, _persist_signal logs a warning and returns
without writing, and process_candle - unable to see the drop - still
invokes the execution forwarder: the call's trace shows the dropped
signal being forwarded with no signals-table insert. -/
theorem C2_counterexample :
    (process_candle exEnvNoInstr (Candle.mk "BTC" "5m" (some 10)) exStateExec).events =
      [Event.fetched "BTC" "5m" 200,
       Event.invoked "s1" "BTC" "5m" (some 10),
       Event.droppedUnknownInstrument "BTC",
       Event.forwarded "s1" "BTC",
       Event.emitted "s1" "BTC" (some 10)] ∧
    Event.persisted "s1" "BTC" ∉
      (process_candle exEnvNoInstr (Candle.mk "BTC" "5m" (some 10)) exStateExec).events := by
  constructor
  · decide
  · decide

lemma stepEval_outcome (env : Env) (c : Candle) (s : Strategy) (st : EngineState) :
    (∃ st2 evs2, stepEval env c s st = ⟨st2, evs2, StepFlow.skip⟩ ∧
       ∀ x ∈ evs2, ∃ sym tf bars, x = Event.fetched sym tf bars) ∨
    (∃ st2 bars, stepEval env c s st =
       stepEval2 env c s st2 [Event.fetched c.symbol c.timeframe bars]) := by
  unfold stepEval
  dsimp only
  by_cases hw : st.warmupRequired (mkKey s.id c.symbol c.timeframe) > 0 ∧
      st.warmupComplete (mkKey s.id c.symbol c.timeframe) = false
  · rw [if_pos hw]
    by_cases hh : env.fetchLen c.symbol c.timeframe
        (barsNeeded (st.warmupRequired (mkKey s.id c.symbol c.timeframe))
          (s.lookbackBars c.timeframe)) <
        st.warmupRequired (mkKey s.id c.symbol c.timeframe)
    · rw [if_pos hh]
      left
      refine ⟨_, _, rfl, ?_⟩
      intro x hx
      rw [List.mem_singleton] at hx
      subst hx
      exact ⟨_, _, _, rfl⟩
    · rw [if_neg hh]
      right
      exact ⟨_, _, rfl⟩
  · rw [if_neg hw]
    right
    exact ⟨_, _, rfl⟩

lemma stepDedupe_outcome (env : Env) (c : Candle) (s : Strategy) (st : EngineState) (t : Ts) :
    (∃ st2 evs2, stepDedupe env c s st t = ⟨st2, evs2, StepFlow.skip⟩ ∧
       ∀ x ∈ evs2, ∃ sym tf bars, x = Event.fetched sym tf bars) ∨
    (∃ st2 bars, stepDedupe env c s st t =
       stepEval2 env c s st2 [Event.fetched c.symbol c.timeframe bars]) := by
  unfold stepDedupe
  cases hD : st.lastCandleTs (mkKey s.id c.symbol c.timeframe) with
  | some tl =>
    dsimp only
    by_cases hle : t ≤ tl
    · rw [if_pos hle]
      left
      exact ⟨st, [], rfl, by simp⟩
    · rw [if_neg hle]
      exact stepEval_outcome env c s (dedupeUpd s c st t)
  | none =>
    dsimp only
    exact stepEval_outcome env c s (dedupeUpd s c st t)

lemma stepStrategy_outcome (env : Env) (c : Candle) (s : Strategy) (st : EngineState) :
    (∃ st2 evs2, stepStrategy env c s st = ⟨st2, evs2, StepFlow.skip⟩ ∧
       ∀ x ∈ evs2, ∃ sym tf bars, x = Event.fetched sym tf bars) ∨
    (∃ st2 bars, stepStrategy env c s st =
       stepEval2 env c s st2 [Event.fetched c.symbol c.timeframe bars]) := by
  unfold stepStrategy
  by_cases h1 : ¬(c.symbol ∈ s.symbols ∧ c.timeframe ∈ s.timeframes)
  · rw [if_pos h1]
    left
    exact ⟨st, [], rfl, by simp⟩
  rw [if_neg h1]
  by_cases h2 : inStrategySession s c.ts = false
  · rw [if_pos h2]
    left
    exact ⟨st, [], rfl, by simp⟩
  rw [if_neg h2]
  cases hts : c.ts with
  | none =>
    dsimp only
    exact stepEval_outcome env c s st
  | some t =>
    dsimp only
    cases hS : st.startupLatestTs (startupKey c.symbol c.timeframe) with
    | some t0 =>
      dsimp only
      by_cases hle : t ≤ t0
      · rw [if_pos hle]
        left
        exact ⟨st, [], rfl, by simp⟩
      · rw [if_neg hle]
        exact stepDedupe_outcome env c s st t
    | none =>
      dsimp only
      exact stepDedupe_outcome env c s st t

lemma stepEval2_forward_persist (env : Env) (c : Candle) (s : Strategy) (st2 : EngineState)
    (bars : Nat) :
    (Event.forwarded s.id c.symbol ∈
        (stepEval2 env c s st2 [Event.fetched c.symbol c.timeframe bars]).events →
      (Event.persisted s.id c.symbol ∈
          (stepEval2 env c s st2 [Event.fetched c.symbol c.timeframe bars]).events ∨
       Event.droppedUnknownInstrument c.symbol ∈
          (stepEval2 env c s st2 [Event.fetched c.symbol c.timeframe bars]).events)) ∧
    (∀ e, env.persistError = some e →
      (∃ n, env.instrumentId c.symbol = some n) →
      Event.forwarded s.id c.symbol ∉
        (stepEval2 env c s st2 [Event.fetched c.symbol c.timeframe bars]).events) := by
  unfold stepEval2 stepForward
  cases hoc : env.onCandle s.id with
  | error e2 =>
    dsimp only
    exact ⟨fun hf => absurd hf (by simp), fun e hpe hinst => by simp⟩
  | ok osig =>
    cases osig with
    | none =>
      dsimp only
      exact ⟨fun hf => absurd hf (by simp), fun e hpe hinst => by simp⟩
    | some sig0 =>
      dsimp only
      cases hI : env.instrumentId c.symbol with
      | none =>
        dsimp only
        refine ⟨fun hf => Or.inr (by cases hxc : st2.hasExecutionClient <;> simp [hxc]), ?_⟩
        intro e hpe hinst
        obtain ⟨n, hn⟩ := hinst
        cases hn
      | some n0 =>
        dsimp only
        cases hpe : env.persistError with
        | some e2 =>
          dsimp only
          exact ⟨fun hf => absurd hf (by simp), fun e hpe2 hinst => by simp⟩
        | none =>
          dsimp only
          refine ⟨fun hf => Or.inl (by cases hxc : st2.hasExecutionClient <;> simp [hxc]), ?_⟩
          intro e hpe2 hinst
          cases hpe2

/-- Claim C2 amended: the forwarder is invoked only after _persist_signal
has returned: within one strategy step, a forwarder invocation is always
preceded by a persist attempt - either the row was actually inserted or the
signal was dropped for an unknown instrument - and when the signals INSERT
raises, the exception propagates and the forwarder is never invoked.  The
claim's unknown-instrument half fails: the drop is invisible to
process_candle, which still forwards the dropped signal (see the
counterexample). -/
theorem C2_persist_before_forward (env : Env) (c : Candle) (s : Strategy) (st : EngineState) :
    (Event.forwarded s.id c.symbol ∈ (stepStrategy env c s st).events →
      (Event.persisted s.id c.symbol ∈ (stepStrategy env c s st).events ∨
       Event.droppedUnknownInstrument c.symbol ∈ (stepStrategy env c s st).events)) ∧
    (∀ e, env.persistError = some e →
      (∃ n, env.instrumentId c.symbol = some n) →
      Event.forwarded s.id c.symbol ∉ (stepStrategy env c s st).events) := by
  rcases stepStrategy_outcome env c s st with ⟨st2, evs2, heq, hall⟩ | ⟨st2, bars, heq⟩
  · rw [heq]
    constructor
    · intro hf
      obtain ⟨sym, tf, b, hx⟩ := hall _ hf
      cases hx
    · intro e hpe hinst hf
      obtain ⟨sym, tf, b, hx⟩ := hall _ hf
      cases hx
  · rw [heq]
    exact stepEval2_forward_persist env c s st2 bars

theorem C2_persist_before_forward_witness :
    (exEnvPersistFail.persistError = some "db" ∧
     (∃ n, exEnvPersistFail.instrumentId "BTC" = some n)) ∧
    Event.forwarded "s1" "BTC" ∉
      (stepStrategy exEnvPersistFail (Candle.mk "BTC" "5m" (some 10)) exStrat exStateExec).events :=
  ⟨⟨rfl, ⟨1, rfl⟩⟩,
   (C2_persist_before_forward exEnvPersistFail (Candle.mk "BTC" "5m" (some 10)) exStrat
       exStateExec).2 "db" rfl ⟨1, rfl⟩⟩

/-- Claim C3 is false on the code: process_candle has no handler around
strategy.on_candle, so with two registered strategies whose on_candle
raises, the first raise propagates out of process_candle - the trace stops
at the first invocation, the second strategy is never evaluated, and no
signal results. -/
theorem C3_counterexample :
    (process_candle exEnvRaise (Candle.mk "BTC" "5m" (some 10)) exStateR).error = some "boom" ∧
    (process_candle exEnvRaise (Candle.mk "BTC" "5m" (some 10)) exStateR).result = none ∧
    (process_candle exEnvRaise (Candle.mk "BTC" "5m" (some 10)) exStateR).events =
      [Event.fetched "BTC" "5m" 200, Event.invoked "s1" "BTC" "5m" (some 10)] :=
  ⟨by decide, rfl, by decide⟩

/-- Claim C3 amended: an exception raised inside on_candle is not caught by
the engine: process_candle propagates it to its caller, returns no signal,
and evaluates none of the remaining strategies for that candle (the engine
catches and logs only execution-forwarding errors). -/
theorem C3_exception_propagates (env : Env) (c : Candle) (s : Strategy) (rest : List Strategy)
    (st : EngineState) (t : Ts) (e : String)
    (hstrats : st.strategies = s :: rest)
    (ht : c.ts = some t)
    (hroute : c.symbol ∈ s.symbols ∧ c.timeframe ∈ s.timeframes)
    (hsession : s.sessionOk t = true)
    (hstartup : ∀ t0, st.startupLatestTs (startupKey c.symbol c.timeframe) = some t0 → t0 < t)
    (hdedupe : OptLt (st.lastCandleTs (mkKey s.id c.symbol c.timeframe)) t)
    (hwarmup : st.warmupComplete (mkKey s.id c.symbol c.timeframe) = true)
    (hraise : env.onCandle s.id = Except.error e) :
    (process_candle env c st).error = some e ∧
    (process_candle env c st).result = none ∧
    (process_candle env c st).events =
      [Event.fetched c.symbol c.timeframe
         (barsNeeded (st.warmupRequired (mkKey s.id c.symbol c.timeframe))
           (s.lookbackBars c.timeframe)),
       Event.invoked s.id c.symbol c.timeframe c.ts] := by
  rw [process_candle_def, hstrats, processStrategies_cons,
    stepStrategy_gates_pass env c s st t ht hroute hsession hstartup hdedupe]
  unfold stepEval
  dsimp only
  rw [if_neg (by
    intro hcon
    rw [show (dedupeUpd s c st t).warmupComplete = st.warmupComplete from rfl, hwarmup] at hcon
    cases hcon.2)]
  unfold stepEval2
  rw [hraise]
  dsimp only
  exact ⟨rfl, rfl, rfl⟩

theorem C3_exception_propagates_witness :
    (exStateR.strategies = exStrat :: [exStrat2] ∧
     exEnvRaise.onCandle "s1" = Except.error "boom" ∧
     exStateR.warmupComplete (mkKey "s1" "BTC" "5m") = true) ∧
    ((process_candle exEnvRaise (Candle.mk "BTC" "5m" (some 10)) exStateR).error = some "boom" ∧
     (process_candle exEnvRaise (Candle.mk "BTC" "5m" (some 10)) exStateR).result = none ∧
     (process_candle exEnvRaise (Candle.mk "BTC" "5m" (some 10)) exStateR).events =
       [Event.fetched "BTC" "5m"
          (barsNeeded (exStateR.warmupRequired (mkKey "s1" "BTC" "5m"))
            (exStrat.lookbackBars "5m")),
        Event.invoked "s1" "BTC" "5m" (some 10)]) :=
  ⟨⟨rfl, rfl, rfl⟩,
   C3_exception_propagates exEnvRaise (Candle.mk "BTC" "5m" (some 10)) exStrat [exStrat2]
     exStateR 10 "boom" rfl rfl ⟨by decide, by decide⟩ rfl
     (fun t0 h => by cases h) (fun tl h => by cases h) rfl rfl⟩

lemma stepEval2_mem_evs (env : Env) (c : Candle) (s : Strategy) (st : EngineState)
    (evs : List Event) (x : Event) (hx : x ∈ evs) :
    x ∈ (stepEval2 env c s st evs).events := by
  unfold stepEval2 stepForward
  repeat' split
  all_goals simp [hx]

lemma stepEval_fetched_mem (env : Env) (c : Candle) (s : Strategy) (st : EngineState) :
    Event.fetched c.symbol c.timeframe
        (barsNeeded (st.warmupRequired (mkKey s.id c.symbol c.timeframe))
          (s.lookbackBars c.timeframe)) ∈
      (stepEval env c s st).events := by
  unfold stepEval
  dsimp only
  split
  · split
    · simp
    · exact stepEval2_mem_evs env c s _ _ _ (by simp)
  · exact stepEval2_mem_evs env c s _ _ _ (by simp)

/-- Claim C7 is false on the code: the history-length check applies only
while warmup is pending; once warmup_complete is true a short history no
longer blocks evaluation.  In a state with init_periods 5 and
warmup_complete already marked true, a fetch returning 3 bars still leads
to on_candle being invoked. -/
theorem C7_counterexample :
    exStateWarm.warmupRequired (mkKey "s1" "BTC" "5m") = 5 ∧
    exEnvShort.fetchLen "BTC" "5m"
      (barsNeeded (exStateWarm.warmupRequired (mkKey "s1" "BTC" "5m"))
        (exStrat.lookbackBars "5m")) = 3 ∧
    (3 : Nat) < 5 ∧
    Event.invoked "s1" "BTC" "5m" (some 10) ∈
      (process_candle exEnvShort (Candle.mk "BTC" "5m" (some 10)) exStateWarm).events :=
  ⟨by decide, rfl, by decide, by decide⟩

/-- Claim C7 amended: for a candle that passes the routing, session,
startup and de-duplication gates, the engine fetches max(200, init_periods,
lookback_bars) history bars; while warmup is still pending
(warmup_complete false), a history shorter than init_periods stops the
strategy for this candle - on_candle is not invoked, only the fetch is
logged - and a history of at least init_periods bars marks warmup_complete
true and lets evaluation proceed to on_candle.  Once warmup_complete is
true the length check is skipped entirely (see the counterexample). -/
theorem C7_warmup_gate (env : Env) (c : Candle) (s : Strategy) (st : EngineState) (t : Ts)
    (ht : c.ts = some t)
    (hroute : c.symbol ∈ s.symbols ∧ c.timeframe ∈ s.timeframes)
    (hsession : s.sessionOk t = true)
    (hstartup : ∀ t0, st.startupLatestTs (startupKey c.symbol c.timeframe) = some t0 → t0 < t)
    (hdedupe : OptLt (st.lastCandleTs (mkKey s.id c.symbol c.timeframe)) t) :
    barsNeeded (st.warmupRequired (mkKey s.id c.symbol c.timeframe)) (s.lookbackBars c.timeframe) =
      max 200 (max (st.warmupRequired (mkKey s.id c.symbol c.timeframe))
        (s.lookbackBars c.timeframe)) ∧
    Event.fetched c.symbol c.timeframe
        (barsNeeded (st.warmupRequired (mkKey s.id c.symbol c.timeframe))
          (s.lookbackBars c.timeframe)) ∈
      (stepStrategy env c s st).events ∧
    (st.warmupRequired (mkKey s.id c.symbol c.timeframe) > 0 →
     st.warmupComplete (mkKey s.id c.symbol c.timeframe) = false →
     env.fetchLen c.symbol c.timeframe
         (barsNeeded (st.warmupRequired (mkKey s.id c.symbol c.timeframe))
           (s.lookbackBars c.timeframe)) <
       st.warmupRequired (mkKey s.id c.symbol c.timeframe) →
     (stepStrategy env c s st).events =
       [Event.fetched c.symbol c.timeframe
          (barsNeeded (st.warmupRequired (mkKey s.id c.symbol c.timeframe))
            (s.lookbackBars c.timeframe))] ∧
     (stepStrategy env c s st).flow = StepFlow.skip) ∧
    (st.warmupRequired (mkKey s.id c.symbol c.timeframe) > 0 →
     st.warmupComplete (mkKey s.id c.symbol c.timeframe) = false →
     st.warmupRequired (mkKey s.id c.symbol c.timeframe) ≤
       env.fetchLen c.symbol c.timeframe
         (barsNeeded (st.warmupRequired (mkKey s.id c.symbol c.timeframe))
           (s.lookbackBars c.timeframe)) →
     (stepStrategy env c s st).state.warmupComplete (mkKey s.id c.symbol c.timeframe) = true ∧
     Event.invoked s.id c.symbol c.timeframe c.ts ∈ (stepStrategy env c s st).events) := by
  rw [stepStrategy_gates_pass env c s st t ht hroute hsession hstartup hdedupe]
  refine ⟨?_, ?_, ?_, ?_⟩
  · unfold barsNeeded
    split
    · rfl
    · rename_i h
      rw [not_ne_iff.mp h]
      simp
  · exact stepEval_fetched_mem env c s (dedupeUpd s c st t)
  · intro h1 h2 h3
    unfold stepEval
    dsimp only
    rw [show (dedupeUpd s c st t).warmupRequired = st.warmupRequired from rfl,
        show (dedupeUpd s c st t).warmupComplete = st.warmupComplete from rfl]
    rw [if_pos (⟨h1, h2⟩ :
      st.warmupRequired (mkKey s.id c.symbol c.timeframe) > 0 ∧
      st.warmupComplete (mkKey s.id c.symbol c.timeframe) = false)]
    rw [if_pos h3]
    exact ⟨rfl, rfl⟩
  · intro h1 h2 h3
    unfold stepEval
    dsimp only
    rw [show (dedupeUpd s c st t).warmupRequired = st.warmupRequired from rfl,
        show (dedupeUpd s c st t).warmupComplete = st.warmupComplete from rfl]
    rw [if_pos (⟨h1, h2⟩ :
      st.warmupRequired (mkKey s.id c.symbol c.timeframe) > 0 ∧
      st.warmupComplete (mkKey s.id c.symbol c.timeframe) = false)]
    rw [if_neg (not_lt.mpr h3)]
    constructor
    · rw [stepEval2_state]
      exact upd_self _ _ _
    · exact stepEval2_invoked_mem env c s _ _

theorem C7_warmup_gate_witness :
    ((Candle.mk "BTC" "5m" (some 10)).ts = some 10 ∧
     ("BTC" ∈ exStrat.symbols ∧ "5m" ∈ exStrat.timeframes) ∧
     exStrat.sessionOk 10 = true ∧
     exStateWarmP.warmupRequired (mkKey "s1" "BTC" "5m") > 0 ∧
     exStateWarmP.warmupComplete (mkKey "s1" "BTC" "5m") = false ∧
     exEnvShort.fetchLen "BTC" "5m"
         (barsNeeded (exStateWarmP.warmupRequired (mkKey "s1" "BTC" "5m"))
           (exStrat.lookbackBars "5m")) <
       exStateWarmP.warmupRequired (mkKey "s1" "BTC" "5m")) ∧
    (barsNeeded (exStateWarmP.warmupRequired (mkKey "s1" "BTC" "5m")) (exStrat.lookbackBars "5m") =
       max 200 (max (exStateWarmP.warmupRequired (mkKey "s1" "BTC" "5m"))
         (exStrat.lookbackBars "5m")) ∧
     Event.fetched "BTC" "5m"
         (barsNeeded (exStateWarmP.warmupRequired (mkKey "s1" "BTC" "5m"))
           (exStrat.lookbackBars "5m")) ∈
       (stepStrategy exEnvShort (Candle.mk "BTC" "5m" (some 10)) exStrat exStateWarmP).events ∧
     ((stepStrategy exEnvShort (Candle.mk "BTC" "5m" (some 10)) exStrat exStateWarmP).events =
        [Event.fetched "BTC" "5m"
           (barsNeeded (exStateWarmP.warmupRequired (mkKey "s1" "BTC" "5m"))
             (exStrat.lookbackBars "5m"))] ∧
      (stepStrategy exEnvShort (Candle.mk "BTC" "5m" (some 10)) exStrat exStateWarmP).flow =
        StepFlow.skip)) := by
  have h := C7_warmup_gate exEnvShort (Candle.mk "BTC" "5m" (some 10)) exStrat exStateWarmP 10
    rfl ⟨by decide, by decide⟩ rfl (fun t0 hh => by cases hh) (fun tl hh => by cases hh)
  exact ⟨⟨rfl, ⟨by decide, by decide⟩, rfl, by decide, rfl, by decide⟩,
    h.1, h.2.1, h.2.2.1 (by decide) rfl (by decide)⟩

end SignalService